import Mathlib

/-!
Shallow embedding of the SpendGuard precheck core:
`src/backend/services/document_store.py`, `src/backend/services/rule_engine.py`
and the pydantic models in `src/backend/models.py`.

Python's dynamically typed JSON/YAML values are embedded as the inductive
`Value`; Python dicts are insertion-ordered association lists; functions that
can raise are embedded in `Except PyErr`.
-/

/-- Exceptions that the embedded code can raise (Python exception classes). -/
inductive PyErr where
  | typeError
  | valueError
  | attributeError
  | regexError
  | jsonDecodeError
deriving Repr, DecidableEq

/-- JSON/YAML-like runtime values (the payload dictionaries, rule configuration
and form dumps are all of this shape).  `vdate` embeds `datetime.date` objects,
which appear in `model_dump()` output; numbers are modelled as integers (the
claims only exercise integral amounts, on which Python float arithmetic is
exact). -/
inductive Value where
  | null
  | bool (b : Bool)
  | num (n : Int)
  | str (s : String)
  | vdate (y m d : Nat)
  | arr (elems : List Value)
  | obj (fields : List (String × Value))

mutual

/-- Structural equality on values, modelling Python `==` on JSON data. -/
def Value.beq : Value → Value → Bool
  | .null, .null => true
  | .bool a, .bool b => a == b
  | .num a, .num b => a == b
  | .str a, .str b => a == b
  | .vdate y m d, .vdate y2 m2 d2 => y == y2 && m == m2 && d == d2
  | .arr xs, .arr ys => Value.beqList xs ys
  | .obj xs, .obj ys => Value.beqObj xs ys
  | _, _ => false

def Value.beqList : List Value → List Value → Bool
  | [], [] => true
  | x :: xs, y :: ys => Value.beq x y && Value.beqList xs ys
  | _, _ => false

def Value.beqObj : List (String × Value) → List (String × Value) → Bool
  | [], [] => true
  | (k1, v1) :: xs, (k2, v2) :: ys => k1 == k2 && Value.beq v1 v2 && Value.beqObj xs ys
  | _, _ => false

end

instance : BEq Value := ⟨Value.beq⟩

mutual

def Value.render : Value → String
  | .null => "null"
  | .bool b => toString b
  | .num n => toString n
  | .str s => "\"" ++ s ++ "\""
  | .vdate y m d => "date(" ++ toString y ++ "," ++ toString m ++ "," ++ toString d ++ ")"
  | .arr xs => "[" ++ Value.renderList xs ++ "]"
  | .obj fs => "(obj " ++ Value.renderObj fs ++ ")"

def Value.renderList : List Value → String
  | [] => ""
  | [x] => Value.render x
  | x :: xs => Value.render x ++ ", " ++ Value.renderList xs

def Value.renderObj : List (String × Value) → String
  | [] => ""
  | [(k, v)] => k ++ ": " ++ Value.render v
  | (k, v) :: xs => k ++ ": " ++ Value.render v ++ ", " ++ Value.renderObj xs

end

instance : Repr Value := ⟨fun v _ => Value.render v⟩

/-- Python truthiness (`bool(v)`) on embedded values. -/
def Value.truthy : Value → Bool
  | .null => false
  | .bool b => b
  | .num n => n != 0
  | .str s => s ≠ ""
  | .vdate _ _ _ => true
  | .arr xs => !xs.isEmpty
  | .obj fs => !fs.isEmpty

/-! ## Structural models of the Python string operations used

(The library `String` functions are defined by well-founded recursion and do
not reduce inside the kernel, so the string operations the source uses are
given structurally over character lists.) -/

/-- `str.split(sep)` for a one-character separator (note `"".split(".") ==
[""]` and empty runs between separators are kept). -/
def splitCharAux (sep : Char) : List Char → List (List Char)
  | [] => [[]]
  | c :: rest =>
    let r := splitCharAux sep rest
    if c == sep then [] :: r
    else
      match r with
      | [] => [[c]]
      | s :: ss => (c :: s) :: ss

/-- `s.split(sep)`. -/
def pySplit (s : String) (sep : Char) : List String :=
  (splitCharAux sep s.toList).map String.mk

/-- `segment.endswith("[]")`. -/
def endsBrackets (s : String) : Bool :=
  match s.toList.reverse with
  | ']' :: '[' :: _ => true
  | _ => false

/-- `segment[:-2]` (drop the trailing `[]`). -/
def dropBrackets (s : String) : String :=
  String.mk ((s.toList.reverse.drop 2).reverse)

/-- All characters are ASCII digits. -/
def strAllDigits (s : String) : Bool :=
  !s.toList.isEmpty && s.toList.all Char.isDigit

/-- Digit run to number (`int(s)` on a checked digit string). -/
def charsToNatAux (acc : Nat) : List Char → Nat
  | [] => acc
  | c :: cs => charsToNatAux (acc * 10 + (c.toNat - '0'.toNat)) cs

/-- `int(s)` for non-negative digit strings, `none` otherwise. -/
def strToNat? (s : String) : Option Nat :=
  if strAllDigits s then some (charsToNatAux 0 s.toList) else none

/-- An optionally signed integer literal (`float("-12")`-style input). -/
def charsToInt? : List Char → Option Int
  | '-' :: rest =>
    if !rest.isEmpty && rest.all Char.isDigit then some (-(charsToNatAux 0 rest : Int)) else none
  | '+' :: rest =>
    if !rest.isEmpty && rest.all Char.isDigit then some ((charsToNatAux 0 rest : Int)) else none
  | cs =>
    if !cs.isEmpty && cs.all Char.isDigit then some ((charsToNatAux 0 cs : Int)) else none

/-- `s.strip()`. -/
def charsTrim (cs : List Char) : List Char :=
  ((cs.dropWhile Char.isWhitespace).reverse.dropWhile Char.isWhitespace).reverse

/-- `s.lower()` (ASCII, which covers the exercised patterns). -/
def strLower (s : String) : String :=
  String.mk (s.toList.map Char.toLower)

/-- Strict lexicographic order on code points (Python `<` on strings). -/
def charsLt : List Char → List Char → Bool
  | [], [] => false
  | [], _ :: _ => true
  | _ :: _, [] => false
  | a :: as, b :: bs => a.toNat < b.toNat || (a == b && charsLt as bs)

/-- Python `a < b` on strings. -/
def strLt (a b : String) : Bool := charsLt a.toList b.toList

/-- Python `a <= b` on strings (total order: `a <= b ↔ ¬ b < a`). -/
def strLe (a b : String) : Bool := !(strLt b a)

/-! ## Document store (`src/backend/services/document_store.py`) -/

/-- Days per month, as validated by `datetime`. -/
def daysInMonth (y m : Nat) : Nat :=
  if m == 2 then (if (y % 4 == 0 && y % 100 != 0) || y % 400 == 0 then 29 else 28)
  else if m == 4 || m == 6 || m == 9 || m == 11 then 30
  else 31

/-- Models `datetime.fromisoformat` restricted to the `YYYY-MM-DD` date form the
knowledge files carry: returns the (year, month, day) triple, or `none` when
the string is not a valid padded ISO date (which in the source raises
`ValueError`). -/
def parseIsoDate (s : String) : Option (Nat × Nat × Nat) :=
  match pySplit s '-' with
  | [ys, ms, ds] =>
    if ys.length == 4 && ms.length == 2 && ds.length == 2 &&
       strAllDigits ys && strAllDigits ms && strAllDigits ds then
      match strToNat? ys, strToNat? ms, strToNat? ds with
      | some y, some m, some d =>
        if 1 ≤ y && 1 ≤ m && m ≤ 12 && 1 ≤ d && d ≤ daysInMonth y m then
          some (y, m, d)
        else none
      | _, _, _ => none
    else none
  | _ => none

/-- Order key of a parsed date: `y*10000 + m*100 + d` is strictly monotone in
the calendar order, and an unparseable string maps to `datetime.min`
(year 1, Jan 1), exactly as `_is_newer`'s `except ValueError` fallback does. -/
def isoOrd (s : String) : Nat :=
  match parseIsoDate s with
  | some (y, m, d) => y * 10000 + m * 100 + d
  | none => 10101

/-- A knowledge-base record (`DocumentRecord` dataclass).  Fields keep the
types the Python constructor receives from `payload.get(...)`. -/
structure DocumentRecord where
  doc_id : Option String
  title : String
  clause : Option String
  snippet : String
  page : Option Int
  effective_date : Option String
  source_path : Option String
  image_path : Option String
deriving Repr, DecidableEq

/-- A parsed segment-file JSON object, holding exactly the fields
`DocumentStore.reload` reads off the payload (`none` = key absent or null). -/
structure KbPayload where
  doc_id : Option String := none
  title : Option String := none
  clause : Option String := none
  snippet : Option String := none
  page : Option Int := none
  effective_date : Option String := none
  source_path : Option String := none
  image_path : Option String := none
deriving Repr, DecidableEq

/-- The record built from a payload in `reload` (`payload.get(key)` /
`payload.get(key, "")`). -/
def DocumentRecord.ofPayload (p : KbPayload) : DocumentRecord :=
  { doc_id := p.doc_id
    title := p.title.getD ""
    clause := p.clause
    snippet := p.snippet.getD ""
    page := p.page
    effective_date := p.effective_date
    source_path := p.source_path
    image_path := p.image_path }

/-- One line of the segment file `kb.jsonl`, as `reload` consumes it: blank
(skipped), malformed (`json.loads` raises `json.JSONDecodeError`), or a parsed
JSON object. -/
inductive KbLine where
  | blank
  | malformed (text : String)
  | payload (p : KbPayload)
deriving Repr

/-- Index key: `(record.doc_id, record.clause)`. -/
abbrev RecKey := Option String × Option String

/-- In-memory state of the `DocumentStore`: the insertion-ordered dict
`records` and the `registry` JSON value (initially the empty list). -/
structure DocumentStore where
  records : List (RecKey × DocumentRecord)
  registry : Value

/-- `DocumentStore._is_newer(left, right)`. -/
def DocumentStore.is_newer (left right : Option String) : Bool :=
  match left, right with
  | none, _ => false
  | some _, none => true
  | some l, some r => isoOrd r ≤ isoOrd l

/-- The collision step of `reload`: `existing = self.records.get(key)`;
`if not existing or self._is_newer(...): self.records[key] = record`
(a Python dict update keeps the key's original position). -/
def kbInsert (records : List (RecKey × DocumentRecord)) (record : DocumentRecord) :
    List (RecKey × DocumentRecord) :=
  let key : RecKey := (record.doc_id, record.clause)
  match records.find? (fun p => p.1 == key) with
  | none => records ++ [(key, record)]
  | some (_, existing) =>
    if DocumentStore.is_newer record.effective_date existing.effective_date then
      records.map (fun p => if p.1 == key then (p.1, record) else p)
    else records

/-- The segment-file half of `reload`.  `kb = none` models a missing backing
file (`Path.exists()` false); a `KbLine.malformed` line models a line on which
`json.loads` raises `JSONDecodeError` (not caught in the source, hence
`.error`). -/
def reloadKbStep (kb : Option (List KbLine)) (st : DocumentStore) :
    Except PyErr DocumentStore :=
  match kb with
  | none => pure st
  | some lines =>
    (lines.foldlM (fun recs line =>
      match line with
      | KbLine.blank => pure recs
      | KbLine.malformed _ => Except.error PyErr.jsonDecodeError
      | KbLine.payload p => pure (kbInsert recs (DocumentRecord.ofPayload p)))
      ([] : List (RecKey × DocumentRecord))) >>= fun recs =>
      pure { st with records := recs }

/-- The registry half of `reload`: `try: json.load … except JSONDecodeError:
registry = []`, skipped entirely when the file is missing. -/
def reloadRegistryStep (registryFile : Option (Except Unit Value)) (st : DocumentStore) :
    Except PyErr DocumentStore :=
  match registryFile with
  | none => pure st
  | some (Except.error _) => pure { st with registry := Value.arr [] }
  | some (Except.ok v) => pure { st with registry := v }

/-- `DocumentStore.reload`: clear the record index, rebuild it from the
segment lines, then load the registry. -/
def DocumentStore.reload (kb : Option (List KbLine))
    (registryFile : Option (Except Unit Value)) (st : DocumentStore) :
    Except PyErr DocumentStore :=
  reloadKbStep kb { st with records := [] } >>= reloadRegistryStep registryFile

/-- Python `==` between a dynamically-typed lookup component and a record key
component (an `Optional[str]`): strings compare by content, `None` equals
`None`, and no other embedded value equals a string or `None`. -/
def valEqOptStr : Value → Option String → Bool
  | .str s, some t => s == t
  | .null, none => true
  | _, _ => false

/-- Stable insert for descending order on a string key: the element being
inserted comes from earlier in the original list, so on ties it stays first. -/
def insertDescBy (k : α → String) (x : α) : List α → List α
  | [] => [x]
  | y :: ys => if strLe (k y) (k x) then x :: y :: ys else y :: insertDescBy k x ys

/-- Stable descending sort on a string key; any stable sort agrees with
Python's `list.sort(key=..., reverse=True)` (Timsort, also stable). -/
def sortDescBy (k : α → String) : List α → List α
  | [] => []
  | x :: xs => insertDescBy k x (sortDescBy k xs)

/-- `DocumentStore._latest_for_doc`: candidates in dict insertion order,
sorted by `rec.effective_date or ""` descending, first one returned. -/
def DocumentStore.latest_for_doc (st : DocumentStore) (doc_id : Value) :
    Option DocumentRecord :=
  let candidates := (st.records.filter (fun p => valEqOptStr doc_id p.1.1)).map (·.2)
  if candidates.isEmpty then none
  else (sortDescBy (fun rec => rec.effective_date.getD "") candidates).head?

/-- `DocumentStore.lookup(doc_id, clause)`; `if clause:` is Python truthiness,
and a found record (a dataclass instance) is always truthy, so
`records.get(key) or self._latest_for_doc(doc_id)` returns the exact match
when present. -/
def DocumentStore.lookup (st : DocumentStore) (doc_id : Value) (clause : Value) :
    Option DocumentRecord :=
  if clause.truthy then
    match st.records.find? (fun p => valEqOptStr doc_id p.1.1 && valEqOptStr clause p.1.2) with
    | some p => some p.2
    | none => st.latest_for_doc doc_id
  else st.latest_for_doc doc_id

/-! ## Rule engine (`src/backend/services/rule_engine.py`) — helpers -/

/-- First binding of `key` in an association list (Python dict access; dict
keys are unique, so first = only). -/
def assocFind (fields : List (String × Value)) (key : String) : Option Value :=
  (fields.find? (fun p => p.1 == key)).map (·.2)

/-- A loaded rule: a YAML mapping.  (The engine only ever calls `.get` on
rules, so rules are modelled directly as dictionaries.) -/
abbrev Rule := List (String × Value)

/-- `rule.get(key)` — `None` when absent. -/
def ruleGet (rule : Rule) (key : String) : Value :=
  (assocFind rule key).getD .null

/-- `rule.get(key, default)`. -/
def ruleGetD (rule : Rule) (key : String) (dflt : Value) : Value :=
  (assocFind rule key).getD dflt

/-- `v.get(key)` — raises `AttributeError` unless `v` is a dict. -/
def Value.get (v : Value) (key : String) : Except PyErr Value :=
  match v with
  | .obj fs => .ok ((assocFind fs key).getD .null)
  | _ => .error .attributeError

/-- `v.get(key, default)`. -/
def Value.getD (v : Value) (key : String) (dflt : Value) : Except PyErr Value :=
  match v with
  | .obj fs => .ok ((assocFind fs key).getD dflt)
  | _ => .error .attributeError

/-- Python `a or b`. -/
def pyOr (a b : Value) : Value := if a.truthy then a else b

/-- Python `str(v)` for the scalar values that reach it; sequences and dicts
only ever feed pattern contexts, whose text no property observes, so their
rendering is abbreviated. -/
def Value.pyStr : Value → String
  | .null => "None"
  | .bool b => if b then "True" else "False"
  | .num n => toString n
  | .str s => s
  | .vdate y m d =>
    let pad := fun (w n : Nat) =>
      let t := toString n
      String.mk (List.replicate (w - t.length) '0') ++ t
    pad 4 y ++ "-" ++ pad 2 m ++ "-" ++ pad 2 d
  | .arr _ => "<list>"
  | .obj _ => "<dict>"

/-- Python iteration `for x in v`: lists yield elements, strings yield
1-character strings, dicts yield keys, everything else raises `TypeError`. -/
def pyIterE : Value → Except PyErr (List Value)
  | .arr xs => .ok xs
  | .str s => .ok (s.toList.map (fun c => Value.str (String.mk [c])))
  | .obj fs => .ok (fs.map (fun p => Value.str p.1))
  | _ => .error .typeError

/-- Python `float(v)` on the embedded (integer-modelled) numbers: numbers and
bools convert, numeric strings parse, any other string raises `ValueError`,
non-scalar values raise `TypeError`.  (Fractional literals are outside the
modelled fragment.) -/
def pyFloat : Value → Except PyErr Int
  | .num n => .ok n
  | .bool b => .ok (if b then 1 else 0)
  | .str s =>
    match charsToInt? (charsTrim s.toList) with
    | some n => .ok n
    | none => .error .valueError
  | _ => .error .typeError

/-- `item.get(field)` where `field` is an arbitrary configured value: string
keys look up, unhashable keys (lists/dicts) raise `TypeError`, other hashable
non-strings never match a string key and yield the default `None`. -/
def pyItemGet (item : List (String × Value)) (key : Value) : Except PyErr Value :=
  match key with
  | .str s => .ok ((assocFind item s).getD .null)
  | .arr _ => .error .typeError
  | .obj _ => .error .typeError
  | _ => .ok .null

/-- Python set insertion (dedup by `==`). -/
def pySetAdd (s : List Value) (v : Value) : List Value :=
  if s.any (fun x => Value.beq x v) then s else s ++ [v]

/-- `needle` is a prefix of `hay`. -/
def charsStartWith : List Char → List Char → Bool
  | _, [] => true
  | [], _ :: _ => false
  | a :: as, b :: bs => a == b && charsStartWith as bs

/-- `needle` occurs as a contiguous run inside `hay`. -/
def charsContain : List Char → List Char → Bool
  | [], needle => needle.isEmpty
  | c :: rest, needle => charsStartWith (c :: rest) needle || charsContain rest needle

/-- Compiled-pattern model for the `re` fragment the engine uses: compilation
fails (`re.error`) on unbalanced parentheses — the canonical malformed
pattern — and `search` is modelled for metacharacter-free patterns as
substring containment (case-folded when `re.IGNORECASE` is set). -/
structure CompiledPattern where
  pattern : String
  ignoreCase : Bool
deriving Repr, DecidableEq

/-- Parenthesis balance check: the validity condition of the regex model. -/
def parensBalanced (s : String) : Bool :=
  let step := fun (acc : Option Nat) (c : Char) =>
    match acc with
    | none => none
    | some depth =>
      if c == '(' then some (depth + 1)
      else if c == ')' then (if depth == 0 then none else some (depth - 1))
      else some depth
  match s.toList.foldl step (some 0) with
  | some 0 => true
  | _ => false

/-- `re.compile(regex, flags)`: a non-string raises `TypeError`, an invalid
pattern raises `re.error`. -/
def reCompile (regex : Value) (ignoreCase : Bool) : Except PyErr CompiledPattern :=
  match regex with
  | .str s => if parensBalanced s then .ok ⟨s, ignoreCase⟩ else .error .regexError
  | _ => .error .typeError

/-- `pattern.search(s)` (as a Boolean), in the substring model. -/
def CompiledPattern.search (p : CompiledPattern) (s : String) : Bool :=
  if p.ignoreCase then charsContain (strLower s).toList (strLower p.pattern).toList
  else charsContain s.toList p.pattern.toList

/-- Calendar validity, as `datetime`/`strptime` enforce it. -/
def validDate (y m d : Nat) : Bool :=
  1 ≤ y && y ≤ 9999 && 1 ≤ m && m ≤ 12 && 1 ≤ d && d ≤ daysInMonth y m

/-- `strptime` against `%Y-%m-%d` or `%Y/%m/%d` (month/day accept one or two
digits, year up to four). -/
def parseSepDate (sep : Char) (s : String) : Option (Nat × Nat × Nat) :=
  match pySplit s sep with
  | [ys, ms, ds] =>
    if 1 ≤ ys.length && ys.length ≤ 4 && 1 ≤ ms.length && ms.length ≤ 2 &&
       1 ≤ ds.length && ds.length ≤ 2 &&
       strAllDigits ys && strAllDigits ms && strAllDigits ds then
      match strToNat? ys, strToNat? ms, strToNat? ds with
      | some y, some m, some d => if validDate y m d then some (y, m, d) else none
      | _, _, _ => none
    else none
  | _ => none

/-- `strptime` against `%Y%m%d` (fixed-width). -/
def parseCompactDate (s : String) : Option (Nat × Nat × Nat) :=
  if s.length == 8 && strAllDigits s then
    match strToNat? (String.mk (s.toList.take 4)),
          strToNat? (String.mk ((s.toList.drop 4).take 2)),
          strToNat? (String.mk (s.toList.drop 6)) with
    | some y, some m, some d => if validDate y m d then some (y, m, d) else none
    | _, _, _ => none
  else none

/-- `parse_date(value)` (rule_engine.py): a `date` object is returned as-is; a
string is tried against `%Y-%m-%d`, `%Y/%m/%d`, `%Y%m%d` in order; anything
else raises `ValueError`. -/
def parse_date (v : Value) : Except PyErr (Nat × Nat × Nat) :=
  match v with
  | .vdate y m d => .ok (y, m, d)
  | .str s =>
    match parseSepDate '-' s with
    | some t => .ok t
    | none =>
      match parseSepDate '/' s with
      | some t => .ok t
      | none =>
        match parseCompactDate s with
        | some t => .ok t
        | none => .error .valueError
  | _ => .error .valueError

/-- Strictly monotone encoding of a valid calendar date, for `<=` / `>`. -/
def dateKey (t : Nat × Nat × Nat) : Nat := t.1 * 10000 + t.2.1 * 100 + t.2.2

/-- `date.isoformat()`. -/
def dateIso (t : Nat × Nat × Nat) : String :=
  let pad := fun (w n : Nat) =>
    let s := toString n
    String.mk (List.replicate (w - s.length) '0') ++ s
  pad 4 t.1 ++ "-" ++ pad 2 t.2.1 ++ "-" ++ pad 2 t.2.2

/-- `_extract(current, parts)` — the generator, collected into a list. -/
def extractAux (current : Value) (parts : List String) : List Value :=
  match parts with
  | [] => [current]
  | head :: tail =>
    if endsBrackets head then
      let key := dropBrackets head
      let iterable : Value :=
        match current with
        | .obj fs => (assocFind fs key).getD (.arr [])
        | _ => .arr []
      match iterable with
      | .arr items => (items.map (fun item => extractAux item tail)).flatten
      | _ => []
    else
      match current with
      | .obj fs =>
        match assocFind fs head with
        | some v => extractAux v tail
        | none => []
      | _ => []

/-- `extract_values(data, path)`. -/
def extract_values (data : Value) (path : String) : List Value :=
  extractAux data (pySplit path '.')

/-- `_matches_filter(item, criteria)`: ALL criteria must hold; a list expects
membership, a dict carrying a `regex` key expects a case-insensitive pattern
match of the stringified (falsy ⇒ `""`) value, anything else exact equality.
A non-dict criteria mapping raises (`criteria.items()`). -/
def matchesFilter (item : List (String × Value)) (criteria : Value) : Except PyErr Bool :=
  match criteria with
  | .obj crits =>
    crits.allM (fun p => do
      let value := (assocFind item p.1).getD .null
      match p.2 with
      | .arr opts => pure (opts.any (fun o => Value.beq value o))
      | .obj efs =>
        if (efs.find? (fun q => q.1 == "regex")).isSome then do
          let pattern ← reCompile ((assocFind efs "regex").getD .null) true
          pure (pattern.search (Value.pyStr (pyOr value (.str ""))))
        else pure (Value.beq value (.obj efs))
      | expected => pure (Value.beq value expected))
  | _ => .error .attributeError

/-- A `Value` that is a dict (`isinstance(item, dict)`). -/
def Value.asObj : Value → Option (List (String × Value))
  | .obj fs => some fs
  | _ => none

/-- `extract_items(form, item_filter)`. -/
def extract_items (form : Value) (item_filter : Value) :
    Except PyErr (List (List (String × Value))) := do
  let items ← form.getD "items" (.arr [])
  match items with
  | .arr xs =>
    if ¬ item_filter.truthy then
      pure (xs.filterMap Value.asObj)
    else
      xs.foldlM (fun acc item =>
        match Value.asObj item with
        | none => pure acc
        | some fields => do
          let ok ← matchesFilter fields item_filter
          pure (if ok then acc ++ [fields] else acc)) []
  | _ => pure []

/-! ## Findings and the finding builder -/

/-- `FindingDetail` (models.py). -/
structure FindingDetail where
  field : Value := .null
  message : String
  context : Value := .null
deriving Repr

/-- `FindingRef` (models.py).  Fields carry the dynamically-typed values the
builder actually assigns. -/
structure FindingRef where
  doc_id : Value
  clause : Value
  page : Value
  snippet : Value
  effective_date : Value
  source_path : Value
  image_path : Value
deriving Repr

/-- `Finding` (models.py). -/
structure Finding where
  rule_id : Value
  message : Value
  severity : Value
  ref : FindingRef
  details : List FindingDetail
deriving Repr

/-- `PrecheckResponse` (models.py). -/
structure PrecheckResponse where
  status : String
  findings : List Finding
deriving Repr

/-- Coerce an `Optional[str]` record field into the dynamic value space. -/
def optStrVal : Option String → Value
  | none => .null
  | some s => .str s

/-- Coerce an `Optional[int]` record field into the dynamic value space. -/
def optIntVal : Option Int → Value
  | none => .null
  | some n => .num n

/-- `lookup_reference(store, ref_conf)`. -/
def lookup_reference (store : DocumentStore) (ref_conf : Value) :
    Except PyErr (Option DocumentRecord) := do
  let doc_id ← ref_conf.get "doc_id"
  if ¬ doc_id.truthy then pure none
  else do
    let clause ← ref_conf.get "clause"
    pure (store.lookup doc_id clause)

/-- `build_finding(rule, message, details, store)`. -/
def build_finding (rule : Rule) (message : Value) (details : List FindingDetail)
    (store : DocumentStore) : Except PyErr Finding := do
  let ref_conf := ruleGetD rule "ref" (.obj [])
  let doc ← lookup_reference store ref_conf
  let severity := ruleGetD rule "severity" (.str "error")
  let ref_doc_id ← ref_conf.getD "doc_id" (.str "")
  let ref_clause ← ref_conf.get "clause"
  let ref_source ← ref_conf.get "source_path"
  pure
    { rule_id := ruleGetD rule "id" (.str "rule")
      message := pyOr message (ruleGetD rule "description" (.str ""))
      severity := severity
      ref :=
        match doc with
        | some d =>
          { doc_id := optStrVal d.doc_id
            clause := pyOr ref_clause (optStrVal d.clause)
            page := optIntVal d.page
            snippet := .str d.snippet
            effective_date := optStrVal d.effective_date
            source_path := optStrVal d.source_path
            image_path := optStrVal d.image_path }
        | none =>
          { doc_id := ref_doc_id
            clause := pyOr ref_clause .null
            page := .null
            snippet := .null
            effective_date := .null
            source_path := ref_source
            image_path := .null }
      details := details }

/-! ## Operation handlers -/

/-- Stable ascending insert on strings (`sorted`). -/
def insertAscStr (x : String) : List String → List String
  | [] => [x]
  | y :: ys => if strLt x y then x :: y :: ys else y :: insertAscStr x ys

/-- `sorted(...)` over strings; Python raises `TypeError` when the elements
are not mutually comparable (mixed types). -/
def sortedStrs (vals : List Value) : Except PyErr (List String) :=
  if vals.all (fun v => match v with | .str _ => true | _ => false) then
    .ok ((vals.filterMap (fun v => match v with | .str s => some s | _ => none)).foldl
      (fun acc s => insertAscStr s acc) [])
  else .error .typeError

/-- `op_required_fields(rule, form, config, store)`. -/
def op_required_fields (rule : Rule) (form : Value) (config : Value)
    (store : DocumentStore) : Except PyErr (List Finding) := do
  let paths ← pyIterE (pyOr config (.arr []))
  let missing ← paths.foldlM (fun acc path => do
    let pstr ←
      match path with
      | Value.str s => pure s
      | _ => Except.error PyErr.attributeError
    let values := extract_values form pstr
    if values.isEmpty ||
       values.all (fun v => Value.beq v .null || Value.beq v (.str "") || Value.beq v (.arr [])) then
      pure (acc ++ [({ field := Value.str pstr, message := "필수 입력값 누락" } : FindingDetail)])
    else pure acc) ([] : List FindingDetail)
  if missing.isEmpty then pure []
  else do
    let message := ruleGetD rule "description" (.str "필수 입력값이 누락되었습니다.")
    let f ← build_finding rule message missing store
    pure [f]

/-- The shared "required set vs present attachment types" step of the two
attachment handlers (`required - present`, truthy filter, `sorted`). -/
def missingAttachmentTypes (required present : List Value) : Except PyErr (List String) :=
  sortedStrs ((required.filter (fun r => ¬ present.any (fun p => Value.beq p r))).filter
    Value.truthy)

/-- The `{att.get("type") for att in attachments if att.get("type")}` set. -/
def presentAttachmentTypes (attachments : Value) : Except PyErr (List Value) := do
  let atts ← pyIterE attachments
  atts.foldlM (fun acc att => do
    let t ← att.get "type"
    pure (if t.truthy then pySetAdd acc t else acc)) ([] : List Value)

/-- The required-type set built from a config entry list (`{type: …}` dicts
contribute their `type` value, other entries contribute themselves). -/
def requiredTypeSet (entries : List Value) : List Value :=
  entries.foldl (fun acc entry =>
    match entry with
    | .obj fs => pySetAdd acc ((assocFind fs "type").getD .null)
    | _ => pySetAdd acc entry) []

/-- `op_required_attachments(rule, form, config, store)`. -/
def op_required_attachments (rule : Rule) (form : Value) (config : Value)
    (store : DocumentStore) : Except PyErr (List Finding) := do
  let entries ← pyIterE (pyOr config (.arr []))
  let required := requiredTypeSet entries
  let attachments ← form.getD "attachments" (.arr [])
  let present ← presentAttachmentTypes attachments
  let missing ← missingAttachmentTypes required present
  if missing.isEmpty then pure []
  else do
    let details := missing.map (fun attachment =>
      ({ field := Value.str "attachments", message := attachment ++ " 첨부 필요" } : FindingDetail))
    let message := ruleGetD rule "description" (.str "필수 첨부가 누락되었습니다.")
    let f ← build_finding rule message details store
    pure [f]

/-- `op_conditional_required_attachments(rule, form, config, store)`. -/
def op_conditional_required_attachments (rule : Rule) (form : Value) (config : Value)
    (store : DocumentStore) : Except PyErr (List Finding) := do
  let item_filter ← config.get "item_filter"
  let typesV ← config.getD "types" (.arr [])
  let typeEntries ← pyIterE typesV
  let required_types := (requiredTypeSet typeEntries).filter Value.truthy
  if required_types.isEmpty then pure []
  else do
    let items ← extract_items form item_filter
    if items.isEmpty then pure []
    else do
      let attachments ← form.getD "attachments" (.arr [])
      let present ← presentAttachmentTypes attachments
      let missing ← missingAttachmentTypes required_types present
      if missing.isEmpty then pure []
      else do
        let details := missing.map (fun attachment =>
          ({ field := Value.str "attachments", message := attachment ++ " 첨부 필요" } : FindingDetail))
        let msgConf ← config.get "message"
        let message := pyOr msgConf (ruleGetD rule "description" (.str "필수 첨부가 누락되었습니다."))
        let f ← build_finding rule message details store
        pure [f]

/-- `op_request_date_lte(rule, form, config, store)`. -/
def op_request_date_lte (rule : Rule) (form : Value) (config : Value)
    (store : DocumentStore) : Except PyErr (List Finding) := do
  let fieldV ← config.getD "field" (.str "request_date")
  let fieldS ←
    match fieldV with
    | Value.str s => pure s
    | _ => Except.error PyErr.attributeError
  let raw_value := (extract_values form fieldS).headD .null
  let limit_value ← config.get "value"
  if ¬ raw_value.truthy || ¬ limit_value.truthy then pure []
  else
    match parse_date raw_value, parse_date limit_value with
    | Except.ok actual, Except.ok limit =>
      if dateKey actual ≤ dateKey limit then pure []
      else do
        let detail : FindingDetail :=
          { field := Value.str fieldS, message := dateIso actual ++ " > " ++ dateIso limit }
        let msgConf ← config.get "message"
        let message := pyOr msgConf (ruleGetD rule "description" (.str "기한을 초과했습니다."))
        let f ← build_finding rule message [detail] store
        pure [f]
    | _, _ => pure []

/-- `op_per_occurrence_cap(rule, form, config, store)`.  Note `float(limit)`
sits outside the `try` that guards `float(value)`. -/
def op_per_occurrence_cap (rule : Rule) (form : Value) (config : Value)
    (store : DocumentStore) : Except PyErr (List Finding) := do
  let limit ← config.get "limit"
  if Value.beq limit .null then pure []
  else do
    let fieldV ← config.getD "field" (.str "amount_total")
    let item_filterV ← config.get "item_filter"
    let items ← extract_items form item_filterV
    let violations ← items.foldlM (fun acc item => do
      let value ← pyItemGet item fieldV
      if Value.beq value .null then pure acc
      else
        match pyFloat value with
        | Except.error _ => pure acc
        | Except.ok amount => do
          let flimit ← pyFloat limit
          if flimit < amount then
            let who := Value.pyStr (pyOr (pyOr ((assocFind item "merchant").getD .null)
              ((assocFind item "description").getD .null)) (.str "항목"))
            let ctx := who ++ ": " ++ toString amount ++ " > " ++ toString flimit
            pure (acc ++ [({ field := Value.str ("items[]." ++ Value.pyStr fieldV),
                             message := "금액 한도 초과",
                             context := Value.str ctx } : FindingDetail)])
          else pure acc) ([] : List FindingDetail)
    if violations.isEmpty then pure []
    else do
      let msgConf ← config.get "message"
      let message := pyOr msgConf (ruleGetD rule "description" (.str "한도를 초과했습니다."))
      let f ← build_finding rule message violations store
      pure [f]

/-- `op_pattern(rule, form, config, store)`.  `re.compile` runs before the
field values are extracted. -/
def op_pattern (rule : Rule) (form : Value) (config : Value)
    (store : DocumentStore) : Except PyErr (List Finding) := do
  let fieldV ← config.get "field"
  let regexV ← config.get "regex"
  if ¬ fieldV.truthy || ¬ regexV.truthy then pure []
  else do
    let icV ← config.getD "ignore_case" (.bool true)
    let pattern ← reCompile regexV icV.truthy
    let fieldS ←
      match fieldV with
      | Value.str s => pure s
      | _ => Except.error PyErr.attributeError
    let values := extract_values form fieldS
    let negV ← config.getD "negate" (.bool false)
    let negate := negV.truthy
    let failures := values.foldl (fun acc value =>
      if Value.beq value .null then acc
      else
        let matched := pattern.search (Value.pyStr value)
        let acc := if negate && matched then
          acc ++ [({ field := fieldV, message := "금지된 패턴과 일치",
                     context := Value.str (Value.pyStr value) } : FindingDetail)]
          else acc
        if ¬ negate && ¬ matched then
          acc ++ [({ field := fieldV, message := "허용된 패턴과 일치하지 않음",
                     context := Value.str (Value.pyStr value) } : FindingDetail)]
        else acc) ([] : List FindingDetail)
    if failures.isEmpty then pure []
    else do
      let msgConf ← config.get "message"
      let message := pyOr msgConf (ruleGetD rule "description" (.str "패턴 검증 실패"))
      let f ← build_finding rule message failures store
      pure [f]

/-- Handler signature: `(rule, form, config, store) -> [Finding]`, may raise. -/
abbrev Handler := Rule → Value → Value → DocumentStore → Except PyErr (List Finding)

/-- `OPERATION_HANDLERS` — the dispatch table. -/
def OPERATION_HANDLERS (op_name : String) : Option Handler :=
  if op_name == "required_fields" then some op_required_fields
  else if op_name == "required_attachments" then some op_required_attachments
  else if op_name == "conditional_required_attachments" then some op_conditional_required_attachments
  else if op_name == "request_date_lte" then some op_request_date_lte
  else if op_name == "per_occurrence_cap" then some op_per_occurrence_cap
  else if op_name == "pattern" then some op_pattern
  else none

/-! ## Rule engine orchestration -/

/-- `RuleEngine._is_applicable(rule, form)`.  `applies.items()` raises on a
truthy non-mapping. -/
def RuleEngine.is_applicable (rule : Rule) (form : Value) : Except PyErr Bool :=
  let applies := ruleGet rule "applies"
  if ¬ applies.truthy then pure true
  else
    match applies with
    | .obj entries =>
      pure (entries.all (fun p =>
        let values := extract_values form p.1
        match p.2 with
        | .arr opts => values.any (fun v => opts.any (fun o => Value.beq v o))
        | expected => values.any (fun v => Value.beq v expected)))
    | _ => Except.error PyErr.attributeError

/-- `RuleEngine._run_checks(rule, form)`.  `checks.items()` raises on a
non-mapping; unknown operation names are skipped. -/
def RuleEngine.run_checks (store : DocumentStore) (rule : Rule) (form : Value) :
    Except PyErr (List Finding) := do
  let checks := ruleGetD rule "checks" (.obj [])
  match checks with
  | .obj cs =>
    cs.foldlM (fun results p =>
      match OPERATION_HANDLERS p.1 with
      | none => pure results
      | some handler => do
        let op_findings ← handler rule form p.2 store
        pure (results ++ op_findings)) ([] : List Finding)
  | _ => Except.error PyErr.attributeError

/-- The rule loop of `RuleEngine.evaluate`: skip inapplicable rules, extend
`findings` with each applicable rule's check results. -/
def RuleEngine.collectFindings (rules : List Rule) (store : DocumentStore) (payload : Value) :
    Except PyErr (List Finding) :=
  rules.foldlM (fun acc rule => do
    let applicable ← RuleEngine.is_applicable rule payload
    if ¬ applicable then pure acc
    else do
      let fs ← RuleEngine.run_checks store rule payload
      pure (acc ++ fs)) ([] : List Finding)

/-- The body of `RuleEngine.evaluate` over an already-serialized payload,
plus the final status computation. -/
def RuleEngine.evaluatePayload (rules : List Rule) (store : DocumentStore) (payload : Value) :
    Except PyErr PrecheckResponse := do
  let findings ← RuleEngine.collectFindings rules store payload
  pure { status := if findings.isEmpty then "ok" else "violations", findings := findings }

/-! ## The public form model (`src/backend/models.py`) and serialization -/

/-- `Attachment` (models.py). -/
structure Attachment where
  filename : String
  type : Option String := none
deriving Repr, DecidableEq

/-- `Item` (models.py).  Float amounts are modelled as integers, on which the
exercised float arithmetic is exact; the `approval_time` datetime is modelled
by its date (no claim observes a time of day). -/
structure Item where
  use_date : Option (Nat × Nat × Nat) := none
  category : Option String := none
  merchant : Option String := none
  amount_net : Option Int := none
  vat_amount : Option Int := none
  amount_total : Option Int := none
  approval_time : Option (Nat × Nat × Nat) := none
  card_type : Option String := none
  description : Option String := none
  headcount : Option Int := none
deriving Repr, DecidableEq

/-- `FormData` (models.py).  `form_type` is a required literal; every other
scalar field is optional; `items` and `attachments` default to empty lists. -/
structure FormData where
  form_type : String
  title : Option String := none
  company_code : Option String := none
  department_code : Option String := none
  drafter_name : Option String := none
  accrual_month : Option String := none
  request_date : Option (Nat × Nat × Nat) := none
  pay_request_date : Option (Nat × Nat × Nat) := none
  project_code : Option String := none
  items : List Item := []
  attachments : List Attachment := []
deriving Repr, DecidableEq

/-- A present optional field becomes one dict entry; `exclude_none=True`
drops absent ones. -/
def optEntry (key : String) : Option Value → List (String × Value)
  | none => []
  | some v => [(key, v)]

/-- A `datetime.date` in the serialized payload. -/
def dateVal (t : Nat × Nat × Nat) : Value := .vdate t.1 t.2.1 t.2.2

/-- `attachment.model_dump(exclude_none=True)`. -/
def Attachment.model_dump (a : Attachment) : Value :=
  .obj ([("filename", .str a.filename)] ++ optEntry "type" (a.type.map .str))

/-- `item.model_dump(exclude_none=True)`. -/
def Item.model_dump (it : Item) : Value :=
  .obj (optEntry "use_date" (it.use_date.map dateVal) ++
        optEntry "category" (it.category.map .str) ++
        optEntry "merchant" (it.merchant.map .str) ++
        optEntry "amount_net" (it.amount_net.map .num) ++
        optEntry "vat_amount" (it.vat_amount.map .num) ++
        optEntry "amount_total" (it.amount_total.map .num) ++
        optEntry "approval_time" (it.approval_time.map dateVal) ++
        optEntry "card_type" (it.card_type.map .str) ++
        optEntry "description" (it.description.map .str) ++
        optEntry "headcount" (it.headcount.map .num))

/-- `form.model_dump(exclude_none=True)`: declaration-order fields, `None`
values dropped recursively; the two list fields are always present. -/
def FormData.model_dump (f : FormData) : Value :=
  .obj ([("form_type", .str f.form_type)] ++
        optEntry "title" (f.title.map .str) ++
        optEntry "company_code" (f.company_code.map .str) ++
        optEntry "department_code" (f.department_code.map .str) ++
        optEntry "drafter_name" (f.drafter_name.map .str) ++
        optEntry "accrual_month" (f.accrual_month.map .str) ++
        optEntry "request_date" (f.request_date.map dateVal) ++
        optEntry "pay_request_date" (f.pay_request_date.map dateVal) ++
        optEntry "project_code" (f.project_code.map .str) ++
        [("items", .arr (f.items.map Item.model_dump)),
         ("attachments", .arr (f.attachments.map Attachment.model_dump))])

/-- `RuleEngine.evaluate(form)`: serialize with `exclude_none=True`, then run
every applicable rule's checks in order. -/
def RuleEngine.evaluate (rules : List Rule) (store : DocumentStore) (form : FormData) :
    Except PyErr PrecheckResponse :=
  RuleEngine.evaluatePayload rules store form.model_dump

/-! ## Concrete stores, records and payloads used by witnesses -/

/-- The empty knowledge store (fresh `DocumentStore` state before any load). -/
def emptyStore : DocumentStore := { records := [], registry := Value.arr [] }

/-- The two knowledge records of the spec's lookup example. -/
def recPolicyC1 : DocumentRecord :=
  { doc_id := some "policy-1", title := "t", clause := some "c1", snippet := "s1",
    page := none, effective_date := some "2024-01-01", source_path := none, image_path := none }

def recPolicyC2 : DocumentRecord :=
  { doc_id := some "policy-1", title := "t", clause := some "c2", snippet := "s2",
    page := none, effective_date := some "2024-06-01", source_path := none, image_path := none }

/-- A store holding the two example records. -/
def storePolicy : DocumentStore :=
  { records := [((some "policy-1", some "c1"), recPolicyC1),
                ((some "policy-1", some "c2"), recPolicyC2)],
    registry := Value.arr [] }

/-- A colliding payload with no effective date, loaded first. -/
def kbNoDateFirst : KbPayload :=
  { doc_id := some "d", clause := some "c", snippet := some "first" }

/-- The same key, no effective date, loaded second. -/
def kbNoDateSecond : KbPayload :=
  { doc_id := some "d", clause := some "c", snippet := some "second" }

/-- A resolvable record carrying its own source path and image path. -/
def recSourced : DocumentRecord :=
  { doc_id := some "doc-1", title := "t", clause := some "c1", snippet := "snip",
    page := some 3, effective_date := some "2024-01-01",
    source_path := some "kb/policy.pdf", image_path := some "img.png" }

/-- A store holding `recSourced`. -/
def storeSourced : DocumentStore :=
  { records := [((some "doc-1", some "c1"), recSourced)], registry := Value.arr [] }

/-- A rule whose `ref` resolves `recSourced` and also sets its own
`source_path`. -/
def ruleOverride : Rule :=
  [("id", Value.str "r-override"),
   ("ref", Value.obj [("doc_id", Value.str "doc-1"), ("clause", Value.str "c1"),
                      ("source_path", Value.str "rule/override.pdf")])]

mutual

/-- No `null` occurs anywhere inside the value — the shape invariant of
`model_dump(exclude_none=True)` output. -/
def Value.noNull : Value → Bool
  | .null => false
  | .bool _ => true
  | .num _ => true
  | .str _ => true
  | .vdate _ _ _ => true
  | .arr xs => Value.noNullList xs
  | .obj fs => Value.noNullObj fs

def Value.noNullList : List Value → Bool
  | [] => true
  | x :: xs => Value.noNull x && Value.noNullList xs

def Value.noNullObj : List (String × Value) → Bool
  | [] => true
  | (_, v) :: fs => Value.noNull v && Value.noNullObj fs

end

/-- A rule whose pattern check carries an invalid regular expression. -/
def ruleBadRegex : Rule :=
  [("id", Value.str "r-bad-regex"),
   ("checks", Value.obj [("pattern", Value.obj
     [("field", Value.str "title"), ("regex", Value.str "(")])])]

/-- A rule whose per-occurrence cap has a non-numeric limit. -/
def ruleBadLimit : Rule :=
  [("id", Value.str "r-bad-limit"),
   ("checks", Value.obj [("per_occurrence_cap", Value.obj
     [("limit", Value.str "abc")])])]

/-- A rule whose `checks` value is a list, not a mapping. -/
def ruleBadChecks : Rule :=
  [("id", Value.str "r-bad-checks"),
   ("checks", Value.arr [Value.str "required_fields"])]

/-- A well-formed rule that flags a missing title. -/
def ruleNeedsTitle : Rule :=
  [("id", Value.str "r-title"), ("description", Value.str "need title"),
   ("checks", Value.obj [("required_fields", Value.arr [Value.str "title"])])]

/-- A form with a title. -/
def formTitled : FormData := { form_type := "card_expense", title := some "hello" }

/-- A form with no title. -/
def formUntitled : FormData := { form_type := "card_expense" }

/-- A form with one priced line item. -/
def formWithAmount : FormData :=
  { form_type := "card_expense", items := [{ amount_total := some 100 }] }

/-! ## Order lemmas for the string ranking used by `_latest_for_doc` -/

theorem charsLt_irrefl : ∀ l : List Char, charsLt l l = false := by
  intro l
  induction l with
  | nil => rfl
  | cons a as ih => simp [charsLt, ih]

theorem charsLt_trans : ∀ {l1 l2 l3 : List Char}, charsLt l1 l2 = true →
    charsLt l2 l3 = true → charsLt l1 l3 = true := by
  intro l1
  induction l1 with
  | nil =>
    intro l2 l3 h12 h23
    cases l2 with
    | nil => simp [charsLt] at h12
    | cons b bs =>
      cases l3 with
      | nil => simp [charsLt] at h23
      | cons c cs => simp [charsLt]
  | cons a as ih =>
    intro l2 l3 h12 h23
    cases l2 with
    | nil => simp [charsLt] at h12
    | cons b bs =>
      cases l3 with
      | nil => simp [charsLt] at h23
      | cons c cs =>
        simp only [charsLt, Bool.or_eq_true, Bool.and_eq_true, beq_iff_eq,
          decide_eq_true_eq] at h12 h23 ⊢
        rcases h12 with h1 | ⟨hab, h1⟩
        · rcases h23 with h2 | ⟨hbc, h2⟩
          · exact Or.inl (Nat.lt_trans h1 h2)
          · subst hbc; exact Or.inl h1
        · subst hab
          rcases h23 with h2 | ⟨hbc, h2⟩
          · exact Or.inl h2
          · subst hbc; exact Or.inr ⟨rfl, ih h1 h2⟩

theorem charsLt_asymm : ∀ {l1 l2 : List Char}, charsLt l1 l2 = true →
    charsLt l2 l1 = false := by
  intro l1
  induction l1 with
  | nil =>
    intro l2 h
    cases l2 with
    | nil => simp [charsLt] at h
    | cons b bs => rfl
  | cons a as ih =>
    intro l2 h
    cases l2 with
    | nil => simp [charsLt] at h
    | cons b bs =>
      simp only [charsLt, Bool.or_eq_true, Bool.and_eq_true, beq_iff_eq,
        decide_eq_true_eq] at h
      simp only [charsLt, Bool.or_eq_false_iff]
      rcases h with hlt | ⟨hab, htail⟩
      · refine ⟨by simp only [decide_eq_false_iff_not]; omega, ?_⟩
        have hba : (b == a) = false := by
          simp only [beq_eq_false_iff_ne, ne_eq]
          intro hba
          subst hba
          omega
        simp [hba]
      · subst hab
        refine ⟨by simp only [decide_eq_false_iff_not]; omega, ?_⟩
        simp [ih htail]

theorem strLe_refl (a : String) : strLe a a = true := by
  simp [strLe, strLt, charsLt_irrefl]

theorem strLt_asymm {a b : String} (h : strLt a b = true) : strLt b a = false :=
  charsLt_asymm h

theorem strLe_of_strLt {a b : String} (h : strLt a b = true) : strLe a b = true := by
  simp [strLe, strLt_asymm h]

theorem char_toNat_inj {a b : Char} (h : a.toNat = b.toNat) : a = b := by
  unfold Char.toNat at h
  exact Char.eq_of_val_eq (UInt32.toNat.inj h)

theorem charsLt_total : ∀ (l1 l2 : List Char),
    charsLt l1 l2 = true ∨ l1 = l2 ∨ charsLt l2 l1 = true := by
  intro l1
  induction l1 with
  | nil =>
    intro l2
    cases l2 with
    | nil => exact Or.inr (Or.inl rfl)
    | cons b bs => exact Or.inl rfl
  | cons a as ih =>
    intro l2
    cases l2 with
    | nil => exact Or.inr (Or.inr rfl)
    | cons b bs =>
      rcases Nat.lt_trichotomy a.toNat b.toNat with h | h | h
      · exact Or.inl (by simp [charsLt, h])
      · have hab : a = b := char_toNat_inj h
        subst hab
        rcases ih bs with h2 | h2 | h2
        · exact Or.inl (by simp [charsLt, h2])
        · exact Or.inr (Or.inl (by rw [h2]))
        · exact Or.inr (Or.inr (by simp [charsLt, h2]))
      · exact Or.inr (Or.inr (by simp [charsLt, h]))

theorem strLe_trans {a b c : String} (hab : strLe a b = true) (hbc : strLe b c = true) :
    strLe a c = true := by
  simp only [strLe, strLt, Bool.not_eq_true'] at hab hbc ⊢
  rcases charsLt_total c.toList a.toList with h | h | h
  · rcases charsLt_total a.toList b.toList with h2 | h2 | h2
    · rw [charsLt_trans h h2] at hbc
      cases hbc
    · rw [h2] at h
      rw [h] at hbc
      cases hbc
    · rw [h2] at hab
      cases hab
  · rw [h]
    exact charsLt_irrefl _
  · exact charsLt_asymm h

theorem insertDescBy_ne_nil {α : Type} (k : α → String) (x : α) (l : List α) :
    insertDescBy k x l ≠ [] := by
  cases l with
  | nil => simp [insertDescBy]
  | cons y ys =>
    simp only [insertDescBy]
    split <;> simp

theorem sortDescBy_eq_nil_iff {α : Type} (k : α → String) (l : List α) :
    sortDescBy k l = [] ↔ l = [] := by
  cases l with
  | nil => simp [sortDescBy]
  | cons x xs => simp [sortDescBy, insertDescBy_ne_nil]

/-- The head of the descending-sorted list is a member of the input and
dominates every input element (the key order being `strLe`). -/
theorem sortDescBy_head_max {α : Type} (k : α → String) :
    ∀ (l : List α) (r : α), (sortDescBy k l).head? = some r →
      r ∈ l ∧ ∀ y ∈ l, strLe (k y) (k r) = true := by
  intro l
  induction l with
  | nil =>
    intro r h
    simp [sortDescBy] at h
  | cons x xs ih =>
    intro r h
    simp only [sortDescBy] at h
    cases hs : sortDescBy k xs with
    | nil =>
      rw [hs] at h
      simp only [insertDescBy, List.head?_cons, Option.some.injEq] at h
      subst h
      have hxs : xs = [] := (sortDescBy_eq_nil_iff k xs).mp hs
      subst hxs
      refine ⟨by simp, ?_⟩
      intro y hy
      simp only [List.mem_singleton] at hy
      subst hy
      exact strLe_refl _
    | cons h0 t0 =>
      rw [hs] at h
      obtain ⟨hmem, hmax⟩ := ih h0 (by rw [hs]; rfl)
      simp only [insertDescBy] at h
      by_cases hc : strLe (k h0) (k x) = true
      · rw [if_pos hc] at h
        simp only [List.head?_cons, Option.some.injEq] at h
        subst h
        refine ⟨List.mem_cons_self _ _, ?_⟩
        intro y hy
        rcases List.mem_cons.mp hy with hyx | hy2
        · subst hyx
          exact strLe_refl _
        · exact strLe_trans (hmax y hy2) hc
      · rw [if_neg hc] at h
        simp only [List.head?_cons, Option.some.injEq] at h
        subst h
        refine ⟨List.mem_cons_of_mem _ hmem, ?_⟩
        intro y hy
        rcases List.mem_cons.mp hy with hyx | hy2
        · subst hyx
          have hlt : strLt (k y) (k h0) = true := by
            have : (!(strLt (k y) (k h0))) = false := by
              simpa [strLe] using hc
            simpa using this
          exact strLe_of_strLt hlt
        · exact hmax y hy2

/-! ## General lemmas about the `Except` embedding -/

theorem except_bind_ok {ε α β : Type} {e : Except ε α} {k : α → Except ε β} {b : β}
    (h : (e >>= k) = .ok b) : ∃ a, e = .ok a ∧ k a = .ok b := by
  cases e with
  | error err => simp [Bind.bind, Except.bind] at h
  | ok a => exact ⟨a, rfl, by simpa [Bind.bind, Except.bind] using h⟩

theorem except_pure_ok {ε α : Type} {a b : α}
    (h : (pure a : Except ε α) = .ok b) : a = b := by
  simpa [pure, Except.pure] using h

/-! ## Theorems for the frozen claims -/

/-- **C6**: path extraction yields zero results for a branch whose key is
missing (both for plain segments and `[]` segments), yields zero results when
an array segment is explored against a non-array value, and handles array
paths and scalar paths as the spec's examples require. -/
theorem extract_values_missing_and_nonarray
    (fs : List (String × Value)) (head : String) (tail : List String) :
    (endsBrackets head = false → assocFind fs head = none →
      extractAux (Value.obj fs) (head :: tail) = []) ∧
    (endsBrackets head = true → assocFind fs (dropBrackets head) = none →
      extractAux (Value.obj fs) (head :: tail) = []) ∧
    (endsBrackets head = true → ∀ v, assocFind fs (dropBrackets head) = some v →
      (∀ elems, v ≠ Value.arr elems) → extractAux (Value.obj fs) (head :: tail) = []) ∧
    (extract_values
      (Value.obj [("items", Value.arr [Value.obj [("amount_total", Value.num 1)],
        Value.obj [("other", Value.num 2)]])]) "items[].amount_total" = [Value.num 1]) ∧
    (extract_values (Value.obj [("items", Value.arr [])]) "items[].amount_total" = []) ∧
    (extract_values (Value.obj []) "items[].amount_total" = []) ∧
    (extract_values (Value.obj [("title", Value.str "x")]) "title" = [Value.str "x"]) := by
  refine ⟨?_, ?_, ?_, rfl, rfl, rfl, rfl⟩
  · intro h1 h2
    simp [extractAux, h1, h2]
  · intro h1 h2
    simp [extractAux, h1, h2]
  · intro h1 v h2 h3
    cases v with
    | arr elems => exact absurd rfl (h3 elems)
    | null => simp [extractAux, h1, h2]
    | bool b => simp [extractAux, h1, h2]
    | num n => simp [extractAux, h1, h2]
    | str s => simp [extractAux, h1, h2]
    | vdate y m d => simp [extractAux, h1, h2]
    | obj fs2 => simp [extractAux, h1, h2]

/-- Witness for **C6** at concrete inputs. -/
theorem extract_values_missing_and_nonarray_witness :
    extractAux (Value.obj [("a", Value.num 1)]) ["title"] = [] ∧
    extractAux (Value.obj [("items", Value.str "x")]) ["items[]", "amount_total"] = [] := by
  constructor
  · exact (extract_values_missing_and_nonarray [("a", Value.num 1)] "title" []).1 rfl rfl
  · exact (extract_values_missing_and_nonarray [("items", Value.str "x")] "items[]"
      ["amount_total"]).2.2.1 rfl (Value.str "x") rfl (fun elems h => Value.noConfusion h)

/-! ## C1: exception propagation out of Evaluate -/

/-- Counterexample to **C1** as stated: a rule with an invalid regex in its
pattern check makes `Evaluate` raise `re.error` (nothing catches handler
faults), and the well-formed rule behind it — which on its own reports a
violation — never runs. -/
theorem evaluate_exception_counterexample :
    RuleEngine.evaluate [ruleBadRegex, ruleNeedsTitle] emptyStore formUntitled
      = .error PyErr.regexError ∧
    (RuleEngine.evaluate [ruleNeedsTitle] emptyStore formUntitled).map
        (fun r => (r.status, r.findings.length))
      = .ok ("violations", 1) := by
  exact ⟨rfl, rfl⟩

/-- **C1 amended**: internal faults in a handler are NOT caught at the
rule-check boundary: an invalid regex in a pattern check raises `re.error`, a
non-numeric `limit` in a per-occurrence cap raises `ValueError` once an item
with a numeric capped field is reached, and a non-mapping `checks` value
raises `AttributeError`; each aborts the whole evaluation, for every knowledge
store and every continuation of the rule list, so one rule's malformed check
configuration does prevent all remaining rules from running. -/
theorem evaluate_exception_spec :
    (∀ (rest : List Rule) (store : DocumentStore),
      RuleEngine.evaluate (ruleBadRegex :: rest) store formTitled
        = .error PyErr.regexError) ∧
    (∀ (rest : List Rule) (store : DocumentStore),
      RuleEngine.evaluate (ruleBadLimit :: rest) store formWithAmount
        = .error PyErr.valueError) ∧
    (∀ (rest : List Rule) (store : DocumentStore),
      RuleEngine.evaluate (ruleBadChecks :: rest) store formTitled
        = .error PyErr.attributeError) :=
  ⟨fun _ _ => rfl, fun _ _ => rfl, fun _ _ => rfl⟩

/-! ## C2: the finding builder's citation fields -/

/-- Counterexample to **C2** as stated: the rule explicitly sets
`ref.source_path`, the reference resolves a record, yet the built citation
carries the record's source path, not the rule's — `build_finding` uses
`doc.source_path if doc else ref_conf.get("source_path")`, so the rule's
`source_path` never overrides a resolved record. -/
theorem build_finding_source_path_counterexample :
    (build_finding ruleOverride (Value.str "m") [{ message := "d" }] storeSourced).map
        (fun f => f.ref.source_path)
      = .ok (Value.str "kb/policy.pdf") ∧
    Value.str "kb/policy.pdf" ≠ Value.str "rule/override.pdf" := by
  refine ⟨rfl, by simp⟩

/-- **C2 amended**: when the rule's reference resolves a knowledge record, the
citation fields come from the resolved record, with only the rule's configured
`clause` overriding (when truthy); the record's `source_path` is used
unconditionally — the rule's own `source_path` takes effect only when no
record resolves.  When no `doc_id` is configured or lookup fails, the citation
carries only the rule's literal `doc_id`/`clause`/`source_path` fields, the
rest empty. -/
theorem build_finding_ref_spec (rule : Rule) (message : Value)
    (details : List FindingDetail) (store : DocumentStore)
    (fs : List (String × Value)) (hfs : ruleGetD rule "ref" (.obj []) = .obj fs) :
    (∀ rec, lookup_reference store (.obj fs) = .ok (some rec) →
      (build_finding rule message details store).map (fun f => (f.ref, f.details))
        = .ok ({ doc_id := optStrVal rec.doc_id
                 clause := pyOr ((assocFind fs "clause").getD .null) (optStrVal rec.clause)
                 page := optIntVal rec.page
                 snippet := .str rec.snippet
                 effective_date := optStrVal rec.effective_date
                 source_path := optStrVal rec.source_path
                 image_path := optStrVal rec.image_path }, details)) ∧
    (lookup_reference store (.obj fs) = .ok none →
      (build_finding rule message details store).map (fun f => (f.ref, f.details))
        = .ok ({ doc_id := (assocFind fs "doc_id").getD (.str "")
                 clause := pyOr ((assocFind fs "clause").getD .null) .null
                 page := .null
                 snippet := .null
                 effective_date := .null
                 source_path := (assocFind fs "source_path").getD .null
                 image_path := .null }, details)) := by
  constructor
  · intro rec hl
    simp only [build_finding, hfs, hl]
    rfl
  · intro hl
    simp only [build_finding, hfs, hl]
    rfl

/-- Witness for **C2 amended**: the resolved-record case at `ruleOverride`. -/
theorem build_finding_ref_spec_witness :
    (build_finding ruleOverride (Value.str "m") [{ message := "d" }] storeSourced).map
        (fun f => (f.ref, f.details))
      = .ok ({ doc_id := Value.str "doc-1"
               clause := Value.str "c1"
               page := Value.num 3
               snippet := Value.str "snip"
               effective_date := Value.str "2024-01-01"
               source_path := Value.str "kb/policy.pdf"
               image_path := Value.str "img.png" }, [{ message := "d" }]) := by
  have h := (build_finding_ref_spec ruleOverride (Value.str "m") [{ message := "d" }]
    storeSourced [("doc_id", Value.str "doc-1"), ("clause", Value.str "c1"),
      ("source_path", Value.str "rule/override.pdf")] rfl).1 recSourced rfl
  exact h

/-! ## C3: reload failure semantics -/

/-- Counterexample to **C3** as stated: a malformed line in the segment file
makes Reload raise (`json.loads` is not guarded), and a missing registry file
leaves the previous non-empty registry in place, not an empty one. -/
theorem reload_failure_counterexample :
    DocumentStore.reload (some [KbLine.malformed "not json"]) none emptyStore
      = .error PyErr.jsonDecodeError ∧
    DocumentStore.reload none none
        { records := [], registry := Value.arr [Value.str "old"] }
      = .ok { records := [], registry := Value.arr [Value.str "old"] } ∧
    Value.arr [Value.str "old"] ≠ Value.arr [] := by
  refine ⟨rfl, rfl, by simp⟩

theorem reloadKbStep_registry (kb : Option (List KbLine)) (st stK : DocumentStore)
    (h : reloadKbStep kb st = .ok stK) : stK.registry = st.registry := by
  cases kb with
  | none =>
    have := except_pure_ok h
    rw [← this]
  | some lines =>
    obtain ⟨recs, hF, hP⟩ := except_bind_ok h
    have := except_pure_ok hP
    rw [← this]

theorem reload_fold_error :
    ∀ (lines : List KbLine) (t : String), KbLine.malformed t ∈ lines →
      ∀ acc, (lines.foldlM (fun recs line =>
          match line with
          | KbLine.blank => pure recs
          | KbLine.malformed _ => Except.error PyErr.jsonDecodeError
          | KbLine.payload p => pure (kbInsert recs (DocumentRecord.ofPayload p)))
          acc : Except PyErr (List (RecKey × DocumentRecord)))
        = .error PyErr.jsonDecodeError := by
  intro lines
  induction lines with
  | nil =>
    intro t ht acc
    cases ht
  | cons line rest ih =>
    intro t ht acc
    rw [List.foldlM_cons]
    cases line with
    | blank =>
      rcases List.mem_cons.mp ht with h | h
      · cases h
      · simpa using ih t h acc
    | malformed s => rfl
    | payload p =>
      rcases List.mem_cons.mp ht with h | h
      · cases h
      · simpa using ih t h (kbInsert acc (DocumentRecord.ofPayload p))

/-- **C3 amended**: a missing segment file leaves the record index empty; a
missing registry file leaves the registry *unchanged* (empty only on a fresh
store); unparseable registry content degrades to an empty registry without
raising; but a malformed line in the segment file propagates the JSON parse
failure out of Reload. -/
theorem reload_failure_spec :
    (∀ rf st st2, DocumentStore.reload none rf st = .ok st2 → st2.records = []) ∧
    (∀ kb st st2, DocumentStore.reload kb (some (Except.error ())) st = .ok st2 →
      st2.registry = Value.arr []) ∧
    (∀ kb st st2, DocumentStore.reload kb none st = .ok st2 → st2.registry = st.registry) ∧
    (∀ lines t, KbLine.malformed t ∈ lines → ∀ rf st,
      DocumentStore.reload (some lines) rf st = .error PyErr.jsonDecodeError) := by
  refine ⟨?_, ?_, ?_, ?_⟩
  · intro rf st st2 h
    obtain ⟨stK, h1, h2⟩ := except_bind_ok h
    have hK : ({ st with records := [] } : DocumentStore) = stK := except_pure_ok h1
    have hrec : stK.records = [] := by rw [← hK]
    cases rf with
    | none =>
      have := except_pure_ok h2
      rw [← this]
      exact hrec
    | some r =>
      cases r with
      | error e =>
        have := except_pure_ok h2
        rw [← this]
        exact hrec
      | ok v =>
        have := except_pure_ok h2
        rw [← this]
        exact hrec
  · intro kb st st2 h
    obtain ⟨stK, h1, h2⟩ := except_bind_ok h
    have := except_pure_ok h2
    rw [← this]
  · intro kb st st2 h
    obtain ⟨stK, h1, h2⟩ := except_bind_ok h
    have := except_pure_ok h2
    rw [← this]
    exact reloadKbStep_registry kb { st with records := [] } stK h1
  · intro lines t ht rf st
    unfold DocumentStore.reload
    have heq : reloadKbStep (some lines) { st with records := [] }
        = (lines.foldlM (fun recs line =>
            match line with
            | KbLine.blank => pure recs
            | KbLine.malformed _ => Except.error PyErr.jsonDecodeError
            | KbLine.payload p => pure (kbInsert recs (DocumentRecord.ofPayload p)))
            ([] : List (RecKey × DocumentRecord))) >>= (fun recs =>
            pure { records := recs, registry := st.registry }) := rfl
    have he : reloadKbStep (some lines) { st with records := [] }
        = .error PyErr.jsonDecodeError := by
      rw [heq, reload_fold_error lines t ht]
      rfl
    rw [he]
    rfl

/-- Witness for **C3 amended**: a reload with no backing files empties the
index. -/
theorem reload_failure_spec_witness :
    ({ records := [], registry := Value.arr [] } : DocumentStore).records = [] :=
  reload_failure_spec.1 none storePolicy
    { records := [], registry := Value.arr [] } rfl

/-! ## C4: collision resolution on load -/

/-- Counterexample to **C4** as stated: when both colliding records lack an
effective date, the later-loaded record does NOT replace the earlier one —
`_is_newer(None, None)` short-circuits to `False` before the `>=` comparison
is reached, so the earlier record (snippet `"first"`) is kept. -/
theorem reload_tie_counterexample :
    (DocumentStore.reload (some [KbLine.payload kbNoDateFirst, KbLine.payload kbNoDateSecond])
        none emptyStore).map (fun s => s.records.map Prod.snd)
      = .ok [DocumentRecord.ofPayload kbNoDateFirst] ∧
    DocumentRecord.ofPayload kbNoDateFirst ≠ DocumentRecord.ofPayload kbNoDateSecond := by
  exact ⟨rfl, by decide⟩

theorem kbInsert_fst_preserved (key : RecKey) (rec : DocumentRecord)
    (p : RecKey × DocumentRecord) :
    (if p.1 == key then (p.1, rec) else p).1 = p.1 := by
  split <;> rfl

theorem kbInsert_pairwise (recs : List (RecKey × DocumentRecord)) (rec : DocumentRecord)
    (h : recs.Pairwise (fun a b => a.1 ≠ b.1)) :
    (kbInsert recs rec).Pairwise (fun a b => a.1 ≠ b.1) := by
  rcases hf : recs.find? (fun p => p.1 == ((rec.doc_id, rec.clause) : RecKey)) with _ | ⟨k, ex⟩
  · have he : kbInsert recs rec = recs ++ [((rec.doc_id, rec.clause), rec)] := by
      simp only [kbInsert]
      rw [hf]
    rw [he, List.pairwise_append]
    refine ⟨h, by simp, ?_⟩
    intro a ha b hb
    simp only [List.mem_singleton] at hb
    subst hb
    have hne := List.find?_eq_none.mp hf a ha
    simp only [beq_iff_eq] at hne
    simpa using hne
  · by_cases hn : DocumentStore.is_newer rec.effective_date ex.effective_date = true
    · have he : kbInsert recs rec = recs.map
          (fun p => if p.1 == ((rec.doc_id, rec.clause) : RecKey) then (p.1, rec) else p) := by
        simp only [kbInsert]
        rw [hf]
        simp [hn]
      rw [he, List.pairwise_map]
      exact h.imp (fun {a b} hab => by
        rw [kbInsert_fst_preserved, kbInsert_fst_preserved]
        exact hab)
    · have he : kbInsert recs rec = recs := by
        simp only [kbInsert]
        rw [hf]
        simp [hn]
      rw [he]
      exact h

theorem reload_fold_pairwise :
    ∀ (lines : List KbLine) (acc : List (RecKey × DocumentRecord)),
      acc.Pairwise (fun a b => a.1 ≠ b.1) →
      ∀ res, (lines.foldlM (fun recs line =>
          match line with
          | KbLine.blank => pure recs
          | KbLine.malformed _ => Except.error PyErr.jsonDecodeError
          | KbLine.payload p => pure (kbInsert recs (DocumentRecord.ofPayload p)))
          acc : Except PyErr (List (RecKey × DocumentRecord))) = .ok res →
        res.Pairwise (fun a b => a.1 ≠ b.1) := by
  intro lines
  induction lines with
  | nil =>
    intro acc hacc res h
    have : acc = res := except_pure_ok (by simpa using h)
    subst this
    exact hacc
  | cons line rest ih =>
    intro acc hacc res h
    rw [List.foldlM_cons] at h
    cases line with
    | blank => exact ih acc hacc res (by simpa using h)
    | malformed t => simp [Bind.bind, Except.bind] at h
    | payload p =>
      exact ih _ (kbInsert_pairwise _ _ hacc) res (by simpa using h)

/-- **C4 amended**: at most one record is kept per (doc_id, clause) key, and
the collision comparison is the non-strict `>=`, so a later-loaded record with
an equal *present* effective date replaces the earlier one; but a colliding
record with no effective date never replaces the existing record — in
particular, when both records lack an effective date the earlier-loaded one is
kept. -/
theorem reload_collision_spec :
    (∀ (kb : Option (List KbLine)) (rf : Option (Except Unit Value)) (st st2 : DocumentStore),
      DocumentStore.reload kb rf st = .ok st2 →
      st2.records.Pairwise (fun a b => a.1 ≠ b.1)) ∧
    (∀ d, DocumentStore.is_newer (some d) (some d) = true) ∧
    (∀ x, DocumentStore.is_newer none x = false) ∧
    (∀ recs (rec : DocumentRecord) q,
      recs.find? (fun p => p.1 == ((rec.doc_id, rec.clause) : RecKey)) = some q →
      DocumentStore.is_newer rec.effective_date q.2.effective_date = false →
      kbInsert recs rec = recs) := by
  refine ⟨?_, ?_, fun x => rfl, ?_⟩
  · intro kb rf st st2 h
    unfold DocumentStore.reload at h
    obtain ⟨stK, h1, h2⟩ := except_bind_ok h
    have hrecs : stK.records.Pairwise (fun a b => a.1 ≠ b.1) := by
      cases kb with
      | none =>
        have : ({ st with records := [] } : DocumentStore) = stK := except_pure_ok h1
        rw [← this]
        simp
      | some lines =>
        obtain ⟨recs, hF, hP⟩ := except_bind_ok h1
        have : ({ st with records := [] } : DocumentStore).records.Pairwise
            (fun a b => a.1 ≠ b.1) := by simp
        have hpw := reload_fold_pairwise lines [] (by simp) recs hF
        have := except_pure_ok hP
        rw [← this]
        exact hpw
    have hpres : st2.records = stK.records := by
      cases rf with
      | none =>
        have := except_pure_ok h2
        rw [← this]
      | some r =>
        cases r with
        | error e =>
          have := except_pure_ok h2
          rw [← this]
        | ok v =>
          have := except_pure_ok h2
          rw [← this]
    rw [hpres]
    exact hrecs
  · intro d
    simp [DocumentStore.is_newer]
  · intro recs rec q hfind hnew
    rcases q with ⟨k, ex⟩
    simp only [kbInsert]
    rw [hfind]
    simp only at hnew
    simp [hnew]

/-- Witness for **C4 amended** at a concrete load. -/
theorem reload_collision_spec_witness :
    ([((some "d", some "c"), DocumentRecord.ofPayload kbNoDateFirst)]
      : List (RecKey × DocumentRecord)).Pairwise (fun a b => a.1 ≠ b.1) :=
  reload_collision_spec.1 (some [KbLine.payload kbNoDateFirst]) none emptyStore
    { records := [((some "d", some "c"), DocumentRecord.ofPayload kbNoDateFirst)],
      registry := Value.arr [] } rfl

/-- Per-entry reading of the `applies` predicate: the embedded any/any Boolean
is the spec's "OR of extracted values within one entry; membership for list
expectations, exact equality for scalars". -/
theorem applies_entry_iff (form : Value) (p : String × Value) :
    ((match p.2 with
      | Value.arr opts =>
        (extract_values form p.1).any (fun v => opts.any (fun o => Value.beq v o))
      | expected => (extract_values form p.1).any (fun v => Value.beq v expected)) = true) ↔
    (∃ v ∈ extract_values form p.1,
      (match p.2 with
       | Value.arr opts => ∃ o ∈ opts, Value.beq v o = true
       | e => Value.beq v e = true)) := by
  rcases p with ⟨path, expected⟩
  cases expected <;> simp [List.any_eq_true]

/-- **C7**: a rule with no (or falsy) `applies` is applicable to every
document; with a mapping `applies`, the rule is applicable iff every
(path, expected) entry has some extracted value that is a member of a list
expectation, respectively exactly equal to a scalar expectation. -/
theorem RuleEngine.is_applicable_spec (rule : Rule) (form : Value) :
    ((ruleGet rule "applies").truthy = false →
      RuleEngine.is_applicable rule form = .ok true) ∧
    (∀ entries, ruleGet rule "applies" = .obj entries →
      (RuleEngine.is_applicable rule form = .ok true ↔
        ∀ p ∈ entries, ∃ v ∈ extract_values form p.1,
          (match p.2 with
           | Value.arr opts => ∃ o ∈ opts, Value.beq v o = true
           | e => Value.beq v e = true))) := by
  constructor
  · intro h
    simp only [RuleEngine.is_applicable, h]
    rw [if_pos (by simp)]
    rfl
  · intro entries he
    cases entries with
    | nil =>
      have ht : (ruleGet rule "applies").truthy = false := by
        rw [he]; rfl
      have hok : RuleEngine.is_applicable rule form = .ok true := by
        simp only [RuleEngine.is_applicable, ht]
        rw [if_pos (by simp)]
        rfl
      simp [hok]
    | cons e es =>
      have ht : (ruleGet rule "applies").truthy = true := by
        rw [he]; rfl
      have hred : RuleEngine.is_applicable rule form =
          pure ((e :: es).all (fun p =>
            let values := extract_values form p.1
            match p.2 with
            | Value.arr opts => values.any (fun v => opts.any (fun o => Value.beq v o))
            | expected => values.any (fun v => Value.beq v expected))) := by
        rw [RuleEngine.is_applicable]
        rw [if_neg (by rw [ht]; simp), he]
      rw [hred]
      rw [show ∀ a b : Bool, ((pure a : Except PyErr Bool) = .ok b) ↔ a = b from
        fun a b => ⟨except_pure_ok, fun h => by rw [h]; rfl⟩]
      rw [List.all_eq_true]
      constructor
      · intro hall p hp
        exact (applies_entry_iff form p).mp (hall p hp)
      · intro hall p hp
        exact (applies_entry_iff form p).mpr (hall p hp)

/-- Witness for **C7**: a one-entry scalar `applies` matched by the payload's
`form_type`. -/
theorem RuleEngine.is_applicable_spec_witness :
    RuleEngine.is_applicable [("applies", Value.obj [("form_type", Value.str "card_expense")])]
      (Value.obj [("form_type", Value.str "card_expense")]) = .ok true := by
  refine ((RuleEngine.is_applicable_spec
      [("applies", Value.obj [("form_type", Value.str "card_expense")])]
      (Value.obj [("form_type", Value.str "card_expense")])).2
      [("form_type", Value.str "card_expense")] rfl).mpr ?_
  intro p hp
  simp only [List.mem_singleton] at hp
  subst hp
  refine ⟨Value.str "card_expense", ?_, ?_⟩
  · have hev : extract_values (Value.obj [("form_type", Value.str "card_expense")]) "form_type"
        = [Value.str "card_expense"] := rfl
    rw [hev]
    exact List.mem_singleton_self _
  · rfl

/-- **C9**: whenever `Evaluate` returns, its status is `"ok"` exactly when the
findings list is empty, and `"violations"` otherwise. -/
theorem evaluate_status_iff (rules : List Rule) (store : DocumentStore) (form : FormData)
    (resp : PrecheckResponse) (h : RuleEngine.evaluate rules store form = .ok resp) :
    (resp.status = "ok" ↔ resp.findings = []) ∧
    (resp.findings ≠ [] → resp.status = "violations") := by
  unfold RuleEngine.evaluate RuleEngine.evaluatePayload at h
  obtain ⟨findings, hF, hP⟩ := except_bind_ok h
  have hresp := except_pure_ok hP
  subst hresp
  cases findings with
  | nil =>
    refine ⟨by simp, ?_⟩
    intro hne
    exact absurd rfl hne
  | cons f fs =>
    refine ⟨⟨fun hs => ?_, fun habs => absurd habs (by simp)⟩, fun _ => rfl⟩
    have hvo : ("violations" : String) = "ok" := hs
    exact absurd hvo (by decide)

/-- **C5**: with a non-empty clause, `lookup` first returns the exact
(docId, clause) record; on miss, or with an empty/absent clause, it falls back
to a record for docId whose effective date (missing dates ranking as the empty
string) dominates every candidate, and returns `none` exactly when docId has
no records at all. -/
theorem DocumentStore.lookup_spec (st : DocumentStore) (d c : String) (hc : c ≠ "") :
    (∀ p, st.records.find?
        (fun p => valEqOptStr (.str d) p.1.1 && valEqOptStr (.str c) p.1.2) = some p →
      st.lookup (.str d) (.str c) = some p.2) ∧
    (st.records.find?
        (fun p => valEqOptStr (.str d) p.1.1 && valEqOptStr (.str c) p.1.2) = none →
      st.lookup (.str d) (.str c) = st.latest_for_doc (.str d)) ∧
    (st.lookup (.str d) .null = st.latest_for_doc (.str d)) ∧
    (st.lookup (.str d) (.str "") = st.latest_for_doc (.str d)) ∧
    ((st.records.filter (fun p => valEqOptStr (.str d) p.1.1)).map Prod.snd = [] →
      st.latest_for_doc (.str d) = none) ∧
    ((st.records.filter (fun p => valEqOptStr (.str d) p.1.1)).map Prod.snd ≠ [] →
      ∃ r, st.latest_for_doc (.str d) = some r) ∧
    (∀ r, st.latest_for_doc (.str d) = some r →
      r ∈ (st.records.filter (fun p => valEqOptStr (.str d) p.1.1)).map Prod.snd ∧
      ∀ y ∈ (st.records.filter (fun p => valEqOptStr (.str d) p.1.1)).map Prod.snd,
        strLe (y.effective_date.getD "") (r.effective_date.getD "") = true) := by
  have htr : (Value.str c).truthy = true := by simp [Value.truthy, hc]
  refine ⟨?_, ?_, ?_, ?_, ?_, ?_, ?_⟩
  · intro p hfind
    simp [DocumentStore.lookup, htr, hfind]
  · intro hfind
    simp [DocumentStore.lookup, htr, hfind]
  · simp [DocumentStore.lookup, Value.truthy]
  · simp [DocumentStore.lookup, Value.truthy]
  · intro hnil
    simp only [DocumentStore.latest_for_doc, hnil]
    rfl
  · intro hne
    simp only [DocumentStore.latest_for_doc]
    rw [if_neg (by simpa [List.isEmpty_iff] using hne)]
    rcases hs : sortDescBy (fun rec => rec.effective_date.getD "")
        ((st.records.filter (fun p => valEqOptStr (.str d) p.1.1)).map Prod.snd) with _ | ⟨r, t⟩
    · exact absurd ((sortDescBy_eq_nil_iff _ _).mp hs) hne
    · exact ⟨r, by rw [hs]; rfl⟩
  · intro r hlat
    simp only [DocumentStore.latest_for_doc] at hlat
    by_cases hnil :
        (st.records.filter (fun p => valEqOptStr (.str d) p.1.1)).map Prod.snd = []
    · rw [if_pos (by simpa [List.isEmpty_iff] using hnil)] at hlat
      cases hlat
    · rw [if_neg (by simpa [List.isEmpty_iff] using hnil)] at hlat
      exact sortDescBy_head_max _ _ r hlat

/-- Witness for **C5**: the spec's example — `Lookup("policy-1","c1")` hits the
`c1` record exactly, and the no-clause lookup falls back to the latest. -/
theorem DocumentStore.lookup_spec_witness :
    storePolicy.lookup (.str "policy-1") (.str "c1") = some recPolicyC1 ∧
    storePolicy.lookup (.str "policy-1") .null = storePolicy.latest_for_doc (.str "policy-1") := by
  constructor
  · exact (DocumentStore.lookup_spec storePolicy "policy-1" "c1" (by decide)).1
      ((some "policy-1", some "c1"), recPolicyC1) rfl
  · exact (DocumentStore.lookup_spec storePolicy "policy-1" "c1" (by decide)).2.2.1

/-- Witness for **C9**: an empty rule set yields status `"ok"` and no
findings. -/
theorem evaluate_status_iff_witness :
    (({ status := "ok", findings := [] } : PrecheckResponse).status = "ok" ↔
      ({ status := "ok", findings := [] } : PrecheckResponse).findings = []) :=
  (evaluate_status_iff [] emptyStore { form_type := "card_expense" }
    { status := "ok", findings := [] } rfl).1

/-! ## C10: `exclude_none` serialization and null behaviour -/

theorem noNullObj_append (l1 l2 : List (String × Value)) :
    Value.noNullObj (l1 ++ l2) = (Value.noNullObj l1 && Value.noNullObj l2) := by
  induction l1 with
  | nil => simp [Value.noNullObj]
  | cons p fs ih =>
    rcases p with ⟨k, v⟩
    simp [Value.noNullObj, ih, Bool.and_assoc]

theorem noNullObj_optEntry {α : Type} (k : String) (o : Option α) (g : α → Value)
    (hg : ∀ a, (g a).noNull = true) :
    Value.noNullObj (optEntry k (o.map g)) = true := by
  cases o with
  | none => rfl
  | some a => simp [optEntry, Value.noNullObj, hg a]

theorem noNullObj_optEntry_str (k : String) (o : Option String) :
    Value.noNullObj (optEntry k (o.map Value.str)) = true :=
  noNullObj_optEntry k o Value.str (fun _ => rfl)

theorem noNullObj_optEntry_num (k : String) (o : Option Int) :
    Value.noNullObj (optEntry k (o.map Value.num)) = true :=
  noNullObj_optEntry k o Value.num (fun _ => rfl)

theorem noNullObj_optEntry_date (k : String) (o : Option (Nat × Nat × Nat)) :
    Value.noNullObj (optEntry k (o.map dateVal)) = true :=
  noNullObj_optEntry k o dateVal (fun _ => rfl)

theorem noNullList_map {α : Type} (l : List α) (g : α → Value)
    (hg : ∀ a, (g a).noNull = true) : Value.noNullList (l.map g) = true := by
  induction l with
  | nil => rfl
  | cons a as ih => simp [Value.noNullList, hg a, ih]

theorem attachment_dump_noNull (a : Attachment) :
    (Attachment.model_dump a).noNull = true := by
  simp only [Attachment.model_dump, Value.noNull]
  simp [noNullObj_append, noNullObj_optEntry_str, Value.noNullObj, Value.noNull]

theorem item_dump_noNull (it : Item) : (Item.model_dump it).noNull = true := by
  simp only [Item.model_dump, Value.noNull]
  simp [noNullObj_append, noNullObj_optEntry_str, noNullObj_optEntry_num,
    noNullObj_optEntry_date]

theorem model_dump_noNull (f : FormData) : (FormData.model_dump f).noNull = true := by
  simp only [FormData.model_dump, Value.noNull]
  simp [noNullObj_append, noNullObj_optEntry_str, noNullObj_optEntry_num,
    noNullObj_optEntry_date, Value.noNullObj, Value.noNull,
    noNullList_map _ _ item_dump_noNull, noNullList_map _ _ attachment_dump_noNull]

theorem noNull_of_assocFind : ∀ {fs : List (String × Value)} {k : String} {v : Value},
    Value.noNullObj fs = true → assocFind fs k = some v → v.noNull = true := by
  intro fs
  induction fs with
  | nil =>
    intro k v h hf
    simp [assocFind] at hf
  | cons p rest ih =>
    intro k v h hf
    rcases p with ⟨k1, v1⟩
    simp only [Value.noNullObj, Bool.and_eq_true] at h
    by_cases hk : (k1 == k) = true
    · simp [assocFind, List.find?_cons, hk] at hf
      rw [← hf]
      exact h.1
    · simp only [assocFind, List.find?_cons] at hf
      rw [Bool.of_not_eq_true hk] at hf
      exact ih h.2 hf

theorem noNull_of_mem_list : ∀ {xs : List Value} {x : Value},
    Value.noNullList xs = true → x ∈ xs → x.noNull = true := by
  intro xs
  induction xs with
  | nil =>
    intro x h hx
    cases hx
  | cons a as ih =>
    intro x h hx
    simp only [Value.noNullList, Bool.and_eq_true] at h
    rcases List.mem_cons.mp hx with hxa | hxs
    · rw [hxa]; exact h.1
    · exact ih h.2 hxs

theorem extractAux_obj_bracket (fs : List (String × Value)) (head : String)
    (tail : List String) (hb : endsBrackets head = true) :
    extractAux (Value.obj fs) (head :: tail) =
      (match (assocFind fs (dropBrackets head)).getD (Value.arr []) with
       | Value.arr items => (items.map (fun item => extractAux item tail)).flatten
       | _ => []) := by
  simp only [extractAux]
  rw [if_pos hb]

theorem extractAux_obj_plain (fs : List (String × Value)) (head : String)
    (tail : List String) (hb : endsBrackets head = false) :
    extractAux (Value.obj fs) (head :: tail) =
      (match assocFind fs head with
       | some v => extractAux v tail
       | none => []) := by
  simp only [extractAux]
  rw [if_neg (by simp [hb])]

theorem extractAux_noNull : ∀ (parts : List String) (v : Value), v.noNull = true →
    ∀ w ∈ extractAux v parts, w.noNull = true := by
  intro parts
  induction parts with
  | nil =>
    intro v hv w hw
    simp only [extractAux, List.mem_singleton] at hw
    subst hw
    exact hv
  | cons head tail ih =>
    intro v hv w hw
    by_cases hb : endsBrackets head = true
    · cases v with
      | obj fs =>
        rw [extractAux_obj_bracket fs head tail hb] at hw
        cases hfind : assocFind fs (dropBrackets head) with
        | none =>
          rw [hfind] at hw
          simp at hw
        | some iv =>
          rw [hfind] at hw
          cases iv with
          | arr items =>
            simp only [Option.getD] at hw
            rw [List.mem_flatten] at hw
            obtain ⟨l, hl, hwl⟩ := hw
            rw [List.mem_map] at hl
            obtain ⟨item, hitem, rfl⟩ := hl
            have harr : (Value.arr items).noNull = true :=
              noNull_of_assocFind (by simpa [Value.noNull] using hv) hfind
            have hitemN : item.noNull = true :=
              noNull_of_mem_list (by simpa [Value.noNull] using harr) hitem
            exact ih item hitemN w hwl
          | null => simp at hw
          | bool b => simp at hw
          | num n => simp at hw
          | str s => simp at hw
          | vdate y m d => simp at hw
          | obj fs2 => simp at hw
      | null => simp [extractAux, hb] at hw
      | bool b => simp [extractAux, hb] at hw
      | num n => simp [extractAux, hb] at hw
      | str s => simp [extractAux, hb] at hw
      | vdate y m d => simp [extractAux, hb] at hw
      | arr xs => simp [extractAux, hb] at hw
    · have hbf : endsBrackets head = false := by
        simpa using hb
      cases v with
      | obj fs =>
        rw [extractAux_obj_plain fs head tail hbf] at hw
        cases hfind : assocFind fs head with
        | none =>
          rw [hfind] at hw
          simp at hw
        | some v2 =>
          rw [hfind] at hw
          have h2 : v2.noNull = true :=
            noNull_of_assocFind (by simpa [Value.noNull] using hv) hfind
          exact ih v2 h2 w hw
      | null => simp [extractAux, hbf] at hw
      | bool b => simp [extractAux, hbf] at hw
      | num n => simp [extractAux, hbf] at hw
      | str s => simp [extractAux, hbf] at hw
      | vdate y m d => simp [extractAux, hbf] at hw
      | arr xs => simp [extractAux, hbf] at hw

theorem assocFind_append_eq (l1 l2 : List (String × Value)) (k : String) :
    assocFind (l1 ++ l2) k =
      (match assocFind l1 k with
       | some v => some v
       | none => assocFind l2 k) := by
  induction l1 with
  | nil => rfl
  | cons p rest ih =>
    by_cases hk : (p.1 == k) = true
    · simp [assocFind, List.find?_cons, hk]
    · have hkf : (p.1 == k) = false := by simpa using hk
      simp only [List.cons_append, assocFind, List.find?_cons, hkf]
      simpa [assocFind] using ih

theorem assocFind_optEntry_ne (k k2 : String) (ov : Option Value)
    (hne : (k == k2) = false) : assocFind (optEntry k ov) k2 = none := by
  cases ov with
  | none => rfl
  | some v => simp [optEntry, assocFind, List.find?_cons, hne]

/-- **C10**: `Evaluate` serializes the submitted form with
`model_dump(exclude_none=True)`, so the payload contains no null anywhere;
consequently path extraction never yields a null value (the pattern handler's
null-skipping branch can never fire on a payload from the public entry point),
and a field set to null is simply absent — `required_fields` detects it
through its empty-extraction branch (`extract_values` returns `[]`). -/
theorem model_dump_excludes_none (f : FormData) :
    (FormData.model_dump f).noNull = true ∧
    (∀ path v, v ∈ extract_values (FormData.model_dump f) path → v ≠ Value.null) ∧
    (f.title = none → extract_values (FormData.model_dump f) "title" = []) := by
  refine ⟨model_dump_noNull f, ?_, ?_⟩
  · intro path v hv hnull
    subst hnull
    have hn := extractAux_noNull (pySplit path '.') (FormData.model_dump f)
      (model_dump_noNull f) Value.null hv
    simp [Value.noNull] at hn
  · intro ht
    have hfind : assocFind ([("form_type", Value.str f.form_type)] ++
        optEntry "title" (f.title.map Value.str) ++
        optEntry "company_code" (f.company_code.map Value.str) ++
        optEntry "department_code" (f.department_code.map Value.str) ++
        optEntry "drafter_name" (f.drafter_name.map Value.str) ++
        optEntry "accrual_month" (f.accrual_month.map Value.str) ++
        optEntry "request_date" (f.request_date.map dateVal) ++
        optEntry "pay_request_date" (f.pay_request_date.map dateVal) ++
        optEntry "project_code" (f.project_code.map Value.str) ++
        [("items", Value.arr (f.items.map Item.model_dump)),
         ("attachments", Value.arr (f.attachments.map Attachment.model_dump))])
        "title" = none := by
      rw [ht]
      simp only [Option.map_none, assocFind_append_eq,
        assocFind_optEntry_ne "company_code" "title" _ rfl,
        assocFind_optEntry_ne "department_code" "title" _ rfl,
        assocFind_optEntry_ne "drafter_name" "title" _ rfl,
        assocFind_optEntry_ne "accrual_month" "title" _ rfl,
        assocFind_optEntry_ne "request_date" "title" _ rfl,
        assocFind_optEntry_ne "pay_request_date" "title" _ rfl,
        assocFind_optEntry_ne "project_code" "title" _ rfl]
      rfl
    show extractAux (FormData.model_dump f) (pySplit "title" '.') = []
    rw [show pySplit "title" '.' = ["title"] from rfl]
    rw [show FormData.model_dump f = Value.obj _ from rfl]
    rw [extractAux_obj_plain _ "title" [] rfl]
    rw [hfind]

/-- Witness for **C10**: a form whose optional `title` is null/absent extracts
nothing at `"title"`. -/
theorem model_dump_excludes_none_witness :
    extract_values (FormData.model_dump formUntitled) "title" = [] :=
  (model_dump_excludes_none formUntitled).2.2 rfl

/-! ## C8: findings always carry details; one builder call per violation -/

theorem build_finding_details {rule : Rule} {msg : Value} {details : List FindingDetail}
    {store : DocumentStore} {f : Finding}
    (h : build_finding rule msg details store = .ok f) : f.details = details := by
  simp only [build_finding] at h
  obtain ⟨doc, h1, h2⟩ := except_bind_ok h
  obtain ⟨rdi, h3, h4⟩ := except_bind_ok h2
  obtain ⟨rcl, h5, h6⟩ := except_bind_ok h4
  obtain ⟨rsp, h7, h8⟩ := except_bind_ok h6
  have := except_pure_ok h8
  rw [← this]

theorem op_required_fields_shape (rule : Rule) (form : Value) (config : Value)
    (store : DocumentStore) (res : List Finding)
    (h : op_required_fields rule form config store = .ok res) :
    res = [] ∨ ∃ f msg details, details ≠ [] ∧
      build_finding rule msg details store = .ok f ∧ res = [f] ∧ f.details = details := by
  simp only [op_required_fields] at h
  obtain ⟨paths, h1, h2⟩ := except_bind_ok h
  obtain ⟨missing, h3, h4⟩ := except_bind_ok h2
  by_cases hm : missing.isEmpty = true
  · rw [if_pos hm] at h4
    exact Or.inl (except_pure_ok h4).symm
  · rw [if_neg hm] at h4
    obtain ⟨f, h5, h6⟩ := except_bind_ok h4
    refine Or.inr ⟨f, _, missing, ?_, h5, (except_pure_ok h6).symm, build_finding_details h5⟩
    simpa [List.isEmpty_iff] using hm

theorem op_required_attachments_shape (rule : Rule) (form : Value) (config : Value)
    (store : DocumentStore) (res : List Finding)
    (h : op_required_attachments rule form config store = .ok res) :
    res = [] ∨ ∃ f msg details, details ≠ [] ∧
      build_finding rule msg details store = .ok f ∧ res = [f] ∧ f.details = details := by
  simp only [op_required_attachments] at h
  obtain ⟨entries, h1, h2⟩ := except_bind_ok h
  obtain ⟨attachments, h3, h4⟩ := except_bind_ok h2
  obtain ⟨present, h5, h6⟩ := except_bind_ok h4
  obtain ⟨missing, h7, h8⟩ := except_bind_ok h6
  by_cases hm : missing.isEmpty = true
  · rw [if_pos hm] at h8
    exact Or.inl (except_pure_ok h8).symm
  · rw [if_neg hm] at h8
    obtain ⟨f, h9, h10⟩ := except_bind_ok h8
    refine Or.inr ⟨f, _, _, ?_, h9, (except_pure_ok h10).symm, build_finding_details h9⟩
    have hne : missing ≠ [] := by simpa [List.isEmpty_iff] using hm
    simpa using hne

theorem op_conditional_required_attachments_shape (rule : Rule) (form : Value)
    (config : Value) (store : DocumentStore) (res : List Finding)
    (h : op_conditional_required_attachments rule form config store = .ok res) :
    res = [] ∨ ∃ f msg details, details ≠ [] ∧
      build_finding rule msg details store = .ok f ∧ res = [f] ∧ f.details = details := by
  simp only [op_conditional_required_attachments] at h
  obtain ⟨item_filter, h1, h2⟩ := except_bind_ok h
  obtain ⟨typesV, h3, h4⟩ := except_bind_ok h2
  obtain ⟨typeEntries, h5, h6⟩ := except_bind_ok h4
  by_cases hr : ((requiredTypeSet typeEntries).filter Value.truthy).isEmpty = true
  · rw [if_pos hr] at h6
    exact Or.inl (except_pure_ok h6).symm
  · rw [if_neg hr] at h6
    obtain ⟨items, h7, h8⟩ := except_bind_ok h6
    by_cases hi : items.isEmpty = true
    · rw [if_pos hi] at h8
      exact Or.inl (except_pure_ok h8).symm
    · rw [if_neg hi] at h8
      obtain ⟨attachments, h9, h10⟩ := except_bind_ok h8
      obtain ⟨present, h11, h12⟩ := except_bind_ok h10
      obtain ⟨missing, h13, h14⟩ := except_bind_ok h12
      by_cases hm : missing.isEmpty = true
      · rw [if_pos hm] at h14
        exact Or.inl (except_pure_ok h14).symm
      · rw [if_neg hm] at h14
        obtain ⟨msgConf, h15, h16⟩ := except_bind_ok h14
        obtain ⟨f, h17, h18⟩ := except_bind_ok h16
        refine Or.inr ⟨f, _, _, ?_, h17, (except_pure_ok h18).symm, build_finding_details h17⟩
        have hne : missing ≠ [] := by simpa [List.isEmpty_iff] using hm
        simpa using hne

theorem op_request_date_lte_shape (rule : Rule) (form : Value) (config : Value)
    (store : DocumentStore) (res : List Finding)
    (h : op_request_date_lte rule form config store = .ok res) :
    res = [] ∨ ∃ f msg details, details ≠ [] ∧
      build_finding rule msg details store = .ok f ∧ res = [f] ∧ f.details = details := by
  simp only [op_request_date_lte] at h
  obtain ⟨fieldV, h1, h2⟩ := except_bind_ok h
  split at h2
  · obtain ⟨fieldS, h3, h4⟩ := except_bind_ok h2
    obtain ⟨limit_value, h5, h6⟩ := except_bind_ok h4
    split at h6
    · exact Or.inl (except_pure_ok h6).symm
    · split at h6
      · split at h6
        · exact Or.inl (except_pure_ok h6).symm
        · obtain ⟨msgConf, h7, h8⟩ := except_bind_ok h6
          obtain ⟨f, h9, h10⟩ := except_bind_ok h8
          exact Or.inr ⟨f, _, _, by simp, h9, (except_pure_ok h10).symm,
            build_finding_details h9⟩
      · exact Or.inl (except_pure_ok h6).symm
  · simp [Bind.bind, Except.bind] at h2

theorem op_per_occurrence_cap_shape (rule : Rule) (form : Value) (config : Value)
    (store : DocumentStore) (res : List Finding)
    (h : op_per_occurrence_cap rule form config store = .ok res) :
    res = [] ∨ ∃ f msg details, details ≠ [] ∧
      build_finding rule msg details store = .ok f ∧ res = [f] ∧ f.details = details := by
  simp only [op_per_occurrence_cap] at h
  obtain ⟨limit, h1, h2⟩ := except_bind_ok h
  split at h2
  · exact Or.inl (except_pure_ok h2).symm
  · obtain ⟨fieldV, h3, h4⟩ := except_bind_ok h2
    obtain ⟨item_filterV, h5, h6⟩ := except_bind_ok h4
    obtain ⟨items, h7, h8⟩ := except_bind_ok h6
    obtain ⟨violations, h9, h10⟩ := except_bind_ok h8
    by_cases hv : violations.isEmpty = true
    · rw [if_pos hv] at h10
      exact Or.inl (except_pure_ok h10).symm
    · rw [if_neg hv] at h10
      obtain ⟨msgConf, h11, h12⟩ := except_bind_ok h10
      obtain ⟨f, h13, h14⟩ := except_bind_ok h12
      refine Or.inr ⟨f, _, violations, ?_, h13, (except_pure_ok h14).symm,
        build_finding_details h13⟩
      simpa [List.isEmpty_iff] using hv

theorem op_pattern_shape (rule : Rule) (form : Value) (config : Value)
    (store : DocumentStore) (res : List Finding)
    (h : op_pattern rule form config store = .ok res) :
    res = [] ∨ ∃ f msg details, details ≠ [] ∧
      build_finding rule msg details store = .ok f ∧ res = [f] ∧ f.details = details := by
  simp only [op_pattern] at h
  obtain ⟨fieldV, h1, h2⟩ := except_bind_ok h
  obtain ⟨regexV, h3, h4⟩ := except_bind_ok h2
  split at h4
  · exact Or.inl (except_pure_ok h4).symm
  · obtain ⟨icV, h5, h6⟩ := except_bind_ok h4
    obtain ⟨pattern, h7, h8⟩ := except_bind_ok h6
    split at h8
    · obtain ⟨fieldS, h9, h10⟩ := except_bind_ok h8
      obtain ⟨negV, h11, h12⟩ := except_bind_ok h10
      split at h12
      · exact Or.inl (except_pure_ok h12).symm
      · obtain ⟨msgConf, h13, h14⟩ := except_bind_ok h12
        obtain ⟨f, h15, h16⟩ := except_bind_ok h14
        rename_i hcond
        refine Or.inr ⟨f, _, _, ?_, h15, (except_pure_ok h16).symm, build_finding_details h15⟩
        simpa [List.isEmpty_iff] using hcond
    · simp [Bind.bind, Except.bind] at h8

theorem handler_shape {name : String} {handler : Handler}
    (hh : OPERATION_HANDLERS name = some handler) (rule : Rule) (form : Value)
    (config : Value) (store : DocumentStore) (res : List Finding)
    (h : handler rule form config store = .ok res) :
    res = [] ∨ ∃ f msg details, details ≠ [] ∧
      build_finding rule msg details store = .ok f ∧ res = [f] ∧ f.details = details := by
  unfold OPERATION_HANDLERS at hh
  split at hh
  · cases hh; exact op_required_fields_shape _ _ _ _ _ h
  · split at hh
    · cases hh; exact op_required_attachments_shape _ _ _ _ _ h
    · split at hh
      · cases hh; exact op_conditional_required_attachments_shape _ _ _ _ _ h
      · split at hh
        · cases hh; exact op_request_date_lte_shape _ _ _ _ _ h
        · split at hh
          · cases hh; exact op_per_occurrence_cap_shape _ _ _ _ _ h
          · split at hh
            · cases hh; exact op_pattern_shape _ _ _ _ _ h
            · cases hh

theorem handler_details {name : String} {handler : Handler}
    (hh : OPERATION_HANDLERS name = some handler) (rule : Rule) (form : Value)
    (config : Value) (store : DocumentStore) (res : List Finding)
    (h : handler rule form config store = .ok res) :
    ∀ f ∈ res, f.details ≠ [] := by
  rcases handler_shape hh rule form config store res h with rfl | ⟨f, msg, details, hne, hb, rfl, hfd⟩
  · intro f hf
    cases hf
  · intro g hg
    simp only [List.mem_singleton] at hg
    subst hg
    rw [hfd]
    exact hne

theorem run_checks_fold_details (store : DocumentStore) (rule : Rule) (form : Value) :
    ∀ (cs : List (String × Value)) (acc : List Finding),
      (∀ f ∈ acc, f.details ≠ []) →
      ∀ res, (cs.foldlM (fun results p =>
          match OPERATION_HANDLERS p.1 with
          | none => pure results
          | some handler => do
            let op_findings ← handler rule form p.2 store
            pure (results ++ op_findings)) acc : Except PyErr (List Finding)) = .ok res →
        ∀ f ∈ res, f.details ≠ [] := by
  intro cs
  induction cs with
  | nil =>
    intro acc hacc res h
    have : acc = res := except_pure_ok (by simpa using h)
    rw [← this]
    exact hacc
  | cons p rest ih =>
    intro acc hacc res h
    simp only [List.foldlM_cons] at h
    rcases hop : OPERATION_HANDLERS p.1 with _ | handler
    · rw [hop] at h
      exact ih acc hacc res (by simpa using h)
    · rw [hop] at h
      obtain ⟨acc2, hstep, hrest⟩ := except_bind_ok h
      obtain ⟨fs, hH, hP⟩ := except_bind_ok hstep
      have hacc2 : ∀ f ∈ acc2, f.details ≠ [] := by
        have happ : acc ++ fs = acc2 := except_pure_ok hP
        rw [← happ]
        intro f hf
        rcases List.mem_append.mp hf with hfa | hff
        · exact hacc f hfa
        · exact handler_details hop rule form p.2 store fs hH f hff
      exact ih acc2 hacc2 res hrest

theorem run_checks_details (store : DocumentStore) (rule : Rule) (form : Value)
    (res : List Finding) (h : RuleEngine.run_checks store rule form = .ok res) :
    ∀ f ∈ res, f.details ≠ [] := by
  simp only [RuleEngine.run_checks] at h
  split at h
  · exact run_checks_fold_details store rule form _ [] (by intro f hf; cases hf) res h
  · simp [Bind.bind, Except.bind] at h

theorem collect_details (store : DocumentStore) (payload : Value) :
    ∀ (rules : List Rule) (acc : List Finding), (∀ f ∈ acc, f.details ≠ []) →
      ∀ res, (rules.foldlM (fun acc rule => do
          let applicable ← RuleEngine.is_applicable rule payload
          if ¬ applicable then pure acc
          else do
            let fs ← RuleEngine.run_checks store rule payload
            pure (acc ++ fs)) acc : Except PyErr (List Finding)) = .ok res →
        ∀ f ∈ res, f.details ≠ [] := by
  intro rules
  induction rules with
  | nil =>
    intro acc hacc res h
    have : acc = res := except_pure_ok (by simpa using h)
    rw [← this]
    exact hacc
  | cons rule rest ih =>
    intro acc hacc res h
    simp only [List.foldlM_cons] at h
    obtain ⟨acc2, hstep, hrest⟩ := except_bind_ok h
    obtain ⟨app, hA, hIf⟩ := except_bind_ok hstep
    have hacc2 : ∀ f ∈ acc2, f.details ≠ [] := by
      split at hIf
      · have : acc = acc2 := except_pure_ok hIf
        rw [← this]
        exact hacc
      · obtain ⟨fs, hR, hP⟩ := except_bind_ok hIf
        have happ : acc ++ fs = acc2 := except_pure_ok hP
        rw [← happ]
        intro f hf
        rcases List.mem_append.mp hf with hfa | hff
        · exact hacc f hfa
        · exact run_checks_details store rule payload fs hR f hff
    exact ih acc2 hacc2 res hrest

/-- **C8**: every finding `Evaluate` returns carries at least one detail, and
every handler in the dispatch table either detects nothing (empty result) or
calls the Finding Builder exactly once, producing exactly one Finding that
aggregates all of that check's (non-empty) detail list. -/
theorem evaluate_findings_have_details :
    (∀ (rules : List Rule) (store : DocumentStore) (form : FormData)
        (resp : PrecheckResponse), RuleEngine.evaluate rules store form = .ok resp →
      ∀ f ∈ resp.findings, f.details ≠ []) ∧
    (∀ (name : String) (handler : Handler), OPERATION_HANDLERS name = some handler →
      ∀ (rule : Rule) (form config : Value) (store : DocumentStore) (res : List Finding),
        handler rule form config store = .ok res →
        res = [] ∨ ∃ f msg details, details ≠ [] ∧
          build_finding rule msg details store = .ok f ∧ res = [f] ∧ f.details = details) := by
  constructor
  · intro rules store form resp h
    unfold RuleEngine.evaluate RuleEngine.evaluatePayload at h
    obtain ⟨findings, hC, hP⟩ := except_bind_ok h
    have hres := except_pure_ok hP
    rw [← hres]
    exact collect_details store form.model_dump rules [] (by intro f hf; cases hf) findings
      (by simpa [RuleEngine.collectFindings] using hC)
  · intro name handler hh rule form config store res h
    exact handler_shape hh rule form config store res h

/-- Witness for **C8**: the `required_fields` handler on a form missing its
title produces exactly one finding whose non-empty details came from one
builder call. -/
theorem evaluate_findings_have_details_witness :
    ([{ rule_id := Value.str "r-title", message := Value.str "need title",
        severity := Value.str "error",
        ref := { doc_id := Value.str "", clause := Value.null, page := Value.null,
                 snippet := Value.null, effective_date := Value.null,
                 source_path := Value.null, image_path := Value.null },
        details := [{ field := Value.str "title", message := "필수 입력값 누락",
                      context := Value.null }] }] : List Finding) = [] ∨
    ∃ f msg details, details ≠ [] ∧
      build_finding ruleNeedsTitle msg details emptyStore = .ok f ∧
      ([{ rule_id := Value.str "r-title", message := Value.str "need title",
          severity := Value.str "error",
          ref := { doc_id := Value.str "", clause := Value.null, page := Value.null,
                   snippet := Value.null, effective_date := Value.null,
                   source_path := Value.null, image_path := Value.null },
          details := [{ field := Value.str "title", message := "필수 입력값 누락",
                        context := Value.null }] }] : List Finding) = [f] ∧
      f.details = details :=
  evaluate_findings_have_details.2 "required_fields" op_required_fields rfl
    ruleNeedsTitle (FormData.model_dump formUntitled) (Value.arr [Value.str "title"])
    emptyStore _ rfl
